import Mathlib

/-!
Shallow embedding of the connectivity-rewriting core of the
`lossless_3d_streaming` repository (files `src/src/tools.py`,
`src/src/main.py`, `src/tools.py`, `src/lossless_transmission.py`).

The Python code keeps the mesh as
  * `gates`    : dict (a, b) ↦ c        — directed half-edge to opposite vertex,
  * `valences` : dict vertex ↦ int      — face count per vertex,
  * `patches`  : dict vertex ↦ ring     — cyclic neighbour list (numpy array),
  * `active_vertices` : set of ids,
and per-pass dicts `plus_minus`, `vertices_status`, `faces_status`.

Python dicts over pairs are embedded as association lists with unique keys
(`dget` / `dset` / `dpop`, with `dpopE` returning `none` where Python's
`pop` raises `KeyError`); dicts over single ids, which the claims never
inspect for key-exactness, are embedded as total functions updated with
`fupd`.  Python exact integers are `Int`.  Vertex positions are
never changed by the core, so command records carry vertex ids only.
-/

namespace LosslessCore

/-- Parity tag: the `'+'` / `'-'` values of the Python `plus_minus` dict. -/
inductive Sign where
  | plus
  | minus
deriving DecidableEq, Repr

/-- Face status values stored in the Python `faces_status` dict
(`'conquered'` / `'null'`; absence of an entry means FREE). -/
inductive FStat where
  | conquered
  | null
deriving DecidableEq, Repr

/-- One reversible command record of the output stream: the Python code
appends `v x y z`, `f a b c` and `df a b c` lines to the `obja` string.
Positions are copied verbatim from the vertex table, so a `V` record is
identified by its vertex id. -/
inductive Rec where
  | V : Nat → Rec
  | F : Nat → Nat → Nat → Rec
  | DF : Nat → Nat → Nat → Rec
deriving DecidableEq, Repr

/-- Gate dictionary: the Python `gates` dict from ordered vertex pairs to
the opposite vertex, as an association list with unique keys. -/
abbrev Gates := List ((Nat × Nat) × Nat)

/-- Dictionary lookup: `gates[k]` when the key is present, else `None`. -/
def dget : Gates → (Nat × Nat) → Option Nat
  | [], _ => none
  | p :: t, k => if p.1 = k then some p.2 else dget t k

/-- Dictionary key removal (`del d[k]` semantics on the unique key). -/
def dpop : Gates → (Nat × Nat) → Gates
  | [], _ => []
  | p :: t, k => if p.1 = k then dpop t k else p :: dpop t k

/-- Dictionary write `d[k] = v`: drops any existing binding of `k` and
appends the new one. -/
def dset (d : Gates) (k : Nat × Nat) (v : Nat) : Gates :=
  dpop d k ++ [(k, v)]

/-- Python `d.pop(k)`: removes the key, raising `KeyError` (here `none`)
when it is absent. -/
def dpopE (d : Gates) (k : Nat × Nat) : Option Gates :=
  if (dget d k).isSome then some (dpop d k) else none

theorem dget_dpop (d : Gates) (k k' : Nat × Nat) :
    dget (dpop d k) k' = if k' = k then none else dget d k' := by
  induction d with
  | nil => simp [dget, dpop]
  | cons p t ih =>
    by_cases hp : p.1 = k
    · rw [dpop, if_pos hp, ih, dget]
      by_cases h : k' = k
      · simp [h]
      · have : ¬ p.1 = k' := by rw [hp]; exact fun e => h e.symm
        simp [h, this]
    · rw [dpop, if_neg hp, dget]
      by_cases hq : p.1 = k'
      · have : ¬ k' = k := fun e => hp (hq.trans e)
        simp [hq, this, dget]
      · rw [if_neg hq, ih, dget, if_neg hq]

theorem dget_append_single (d : Gates) (k : Nat × Nat) (v : Nat) (k' : Nat × Nat) :
    dget (d ++ [(k, v)]) k' =
      match dget d k' with
      | some x => some x
      | none => if k' = k then some v else none := by
  induction d with
  | nil =>
    by_cases h : k' = k
    · simp [dget, h]
    · have : ¬ k = k' := fun e => h e.symm
      simp [dget, h, this]
  | cons p t ih =>
    by_cases hp : p.1 = k'
    · simp [dget, hp]
    · simp only [List.cons_append, dget, if_neg hp]
      exact ih

theorem dget_dset (d : Gates) (k : Nat × Nat) (v : Nat) (k' : Nat × Nat) :
    dget (dset d k v) k' = if k' = k then some v else dget d k' := by
  rw [dset, dget_append_single, dget_dpop]
  by_cases h : k' = k
  · simp [h]
  · simp only [if_neg h]
    cases dget d k' <;> rfl

theorem dpopE_of_isSome {d : Gates} {k : Nat × Nat} (h : (dget d k).isSome) :
    dpopE d k = some (dpop d k) := by
  simp [dpopE, h]

/-- Ring update `patch[patch != front]` — numpy boolean-mask removal of
every occurrence of `front`. -/
def ringRemove (front : Nat) : List Nat → List Nat
  | [] => []
  | y :: t => if y = front then ringRemove front t else y :: ringRemove front t

/-- Ring update `patch[np.where(patch == front)[0]] = x` — numpy indexed
assignment replacing every occurrence of `front` by `x`. -/
def ringReplace (front x : Nat) (l : List Nat) : List Nat :=
  l.map (fun y => if y = front then x else y)

/-- Ring update `np.insert(patch[patch != front], [i, i], [x, y])` where
`i = np.where(patch == front)[0][0]`: remove `front` and splice `x, y`
at its position. -/
def ringInsert2 (front x y : Nat) (l : List Nat) : List Nat :=
  let i := l.indexOf front
  let p := ringRemove front l
  p.take i ++ [x, y] ++ p.drop i

theorem length_ringRemove {front : Nat} {l : List Nat} (h : l.count front = 1) :
    (ringRemove front l).length + 1 = l.length := by
  induction l with
  | nil => simp at h
  | cons a t ih =>
    by_cases ha : a = front
    · subst ha
      have ht : t.count a = 0 := by
        have := List.count_cons_self a t
        omega
      have hnm : a ∉ t := fun hm => by
        have := List.count_pos_iff.mpr hm
        omega
      have hid : ringRemove a t = t := by
        clear ih h ht
        induction t with
        | nil => rfl
        | cons b s ihs =>
          have hb : ¬ b = a := fun e => hnm (e ▸ List.mem_cons_self b s)
          rw [ringRemove, if_neg hb, ihs (fun hm => hnm (List.mem_cons_of_mem b hm))]
      rw [ringRemove, if_pos rfl, hid, List.length_cons]
    · have hcount : t.count front = 1 := by
        rw [List.count_cons] at h
        simpa [ha] using h
      rw [ringRemove, if_neg ha, List.length_cons, List.length_cons, ← ih hcount]

theorem length_ringReplace (front x : Nat) (l : List Nat) :
    (ringReplace front x l).length = l.length := by
  simp [ringReplace]

theorem length_ringInsert2 {front : Nat} (x y : Nat) {l : List Nat}
    (h : l.count front = 1) :
    (ringInsert2 front x y l).length = l.length + 1 := by
  have hr := length_ringRemove h
  simp only [ringInsert2, List.length_append, List.length_take, List.length_drop,
    List.length_cons, List.length_nil]
  omega

theorem not_mem_ringRemove (front : Nat) (l : List Nat) :
    front ∉ ringRemove front l := by
  induction l with
  | nil => simp [ringRemove]
  | cons a t ih =>
    by_cases ha : a = front
    · rw [ringRemove, if_pos ha]; exact ih
    · rw [ringRemove, if_neg ha]
      intro hm
      rcases List.mem_cons.mp hm with h | h
      · exact ha h.symm
      · exact ih h

theorem count_ringRemove_of_ne {a front : Nat} (h : a ≠ front) (l : List Nat) :
    (ringRemove front l).count a = l.count a := by
  induction l with
  | nil => rfl
  | cons b t ih =>
    by_cases hb : b = front
    · subst hb
      rw [ringRemove, if_pos rfl, ih]
      simp [List.count_cons, h, Ne.symm h]
    · rw [ringRemove, if_neg hb, List.count_cons, List.count_cons, ih]

theorem mem_ringRemove_of_ne {a front : Nat} (h : a ≠ front) {l : List Nat}
    (hm : a ∈ l) : a ∈ ringRemove front l := by
  induction l with
  | nil => simp at hm
  | cons b t ih =>
    rcases List.mem_cons.mp hm with hh | hh
    · subst hh
      rw [ringRemove, if_neg (fun e => h e)]
      exact List.mem_cons_self a _
    · by_cases hb : b = front
      · rw [ringRemove, if_pos hb]; exact ih hh
      · rw [ringRemove, if_neg hb]; exact List.mem_cons_of_mem b (ih hh)

/-- Pointwise update of a Python dict embedded as a total function
(`d[k] = v` for the id-keyed dicts `valences`, `patches`, `plus_minus`,
`vertices_status`, `faces_status`). -/
def fupd {α β : Type} [DecidableEq α] (f : α → β) (a : α) (b : β) : α → β :=
  fun x => if x = a then b else f x

theorem fupd_self {α β : Type} [DecidableEq α] (f : α → β) (a : α) (b : β) :
    fupd f a b a = b := by
  simp [fupd]

theorem fupd_other {α β : Type} [DecidableEq α] {x a : α} (f : α → β) (b : β)
    (h : x ≠ a) : fupd f a b x = f x := by
  simp [fupd, h]

/-- The mutable module state threaded through the passes of
`src/src/tools.py`: `gates`, `valences`, `patches`, `active_vertices`,
and the per-pass dicts `plus_minus`, `vertices_status`, `faces_status`
(`vstat v = true` embeds `vertices_status[v] == 'conquered'`). -/
structure MState where
  gates : Gates
  valences : Nat → Int
  patches : Nat → List Nat
  active : List Nat
  signs : Nat → Option Sign
  vstat : Nat → Bool
  fstat : Nat × Nat → Option FStat

/-- Guarded parity write, the Python idiom
`if plus_minus.get(x) is None: plus_minus[x] = s`. -/
def signIfUnset (pm : Nat → Option Sign) (v : Nat) (s : Sign) : Nat → Option Sign :=
  if pm v = none then fupd pm v (some s) else pm

/-- Case-table body of `retriangulation` (src/src/tools.py lines 366-751),
after the two parity lookups `plus_minus[left]` / `plus_minus[right]` have
succeeded.  `chain` is the ring of the removed vertex `front` rotated so
that `chain[0] = right`; `l`, `r` are the entry gate's endpoints.  Returns
the updated state and the `f` / `df` records appended to `obja`. -/
def retriangulationBody (chain : List Nat) (l r front : Nat) (ls rs : Sign)
    (st : MState) : MState × List Rec :=
  let valence := st.valences front
  let c0 := chain.getD 0 0
  let c1 := chain.getD 1 0
  let c2 := chain.getD 2 0
  let c3 := chain.getD 3 0
  let c4 := chain.getD 4 0
  let c5 := chain.getD 5 0
  if valence = 3 then
    let valences := chain.foldl (fun f x => fupd f x (f x - 1)) st.valences
    let gates := dset (dset (dset st.gates (l, r) c1) (r, c1) l) (c1, l) r
    let patches :=
      chain.foldl (fun f x => fupd f x (ringRemove front (f x))) st.patches
    let signs :=
      if st.signs c1 = none then
        fupd st.signs c1
          (some (if ls = Sign.plus ∧ rs = Sign.plus then Sign.minus else Sign.plus))
      else st.signs
    ({ st with valences := valences, gates := gates, patches := patches, signs := signs },
     [Rec.F front c0 c1, Rec.F front c1 c2, Rec.F front c2 c0,
      Rec.DF c0 c1 c2])
  else if valence = 4 then
    if rs = Sign.minus then
      let signs := signIfUnset (signIfUnset st.signs c1 Sign.plus) c2 Sign.minus
      let gates :=
        dset (dset (dset (dset (dset (dset st.gates
          (l, r) c1) (r, c1) l) (c1, c2) l) (c2, l) c1) (l, c1) c2) (c1, l) r
      let v1 := fupd st.valences r (st.valences r - 1)
      let v2 := fupd v1 c2 (v1 c2 - 1)
      let p1 := fupd st.patches r (ringRemove front (st.patches r))
      let p2 := fupd p1 c2 (ringRemove front (p1 c2))
      let p3 := fupd p2 l (ringReplace front c1 (p2 l))
      let p4 := fupd p3 c1 (ringReplace front l (p3 c1))
      ({ st with signs := signs, gates := gates, valences := v2, patches := p4 },
       [Rec.F front c0 c1, Rec.F front c1 c2, Rec.F front c2 c3, Rec.F front c3 c0,
        Rec.DF l c1 c2, Rec.DF l c1 r])
    else
      let signs := signIfUnset (signIfUnset st.signs c1 Sign.minus) c2 Sign.plus
      let gates :=
        dset (dset (dset (dset (dset (dset st.gates
          (l, r) c2) (r, c1) c2) (c1, c2) r) (c2, l) r) (r, c2) l) (c2, r) c1
      let v1 := fupd st.valences l (st.valences l - 1)
      let v2 := fupd v1 c1 (v1 c1 - 1)
      let p1 := fupd st.patches l (ringRemove front (st.patches l))
      let p2 := fupd p1 c1 (ringRemove front (p1 c1))
      let p3 := fupd p2 r (ringReplace front c2 (p2 r))
      let p4 := fupd p3 c2 (ringReplace front r (p3 c2))
      ({ st with signs := signs, gates := gates, valences := v2, patches := p4 },
       [Rec.F front c0 c1, Rec.F front c1 c2, Rec.F front c2 c3, Rec.F front c3 c0,
        Rec.DF r c2 l, Rec.DF c2 r c1])
  else if valence = 5 then
    if rs = Sign.minus then
      let signs :=
        signIfUnset (signIfUnset (signIfUnset st.signs c1 Sign.plus) c2 Sign.minus)
          c3 Sign.plus
      let gates :=
        dset (dset (dset (dset (dset (dset (dset (dset (dset st.gates
          (l, r) c1) (r, c1) l) (c1, c2) c3) (c2, c3) c1) (c3, l) c1)
          (l, c1) c3) (c1, l) r) (c3, c1) c2) (c1, c3) l
      let v1 := fupd st.valences r (st.valences r - 1)
      let v2 := fupd v1 c1 (v1 c1 + 1)
      let v3 := fupd v2 c2 (v2 c2 - 1)
      let p1 := fupd st.patches r (ringRemove front (st.patches r))
      let p2 := fupd p1 c1 (ringInsert2 front c3 l (p1 c1))
      let p3 := fupd p2 c2 (ringRemove front (p2 c2))
      let p4 := fupd p3 c3 (ringReplace front c1 (p3 c3))
      let p5 := fupd p4 l (ringReplace front c1 (p4 l))
      ({ st with signs := signs, gates := gates, valences := v3, patches := p5 },
       [Rec.F front c0 c1, Rec.F front c1 c2, Rec.F front c2 c3, Rec.F front c3 c4,
        Rec.F front c4 c0,
        Rec.DF l r c1, Rec.DF c1 l c3, Rec.DF c1 c2 c3])
    else if ls = Sign.minus then
      let signs :=
        signIfUnset (signIfUnset (signIfUnset st.signs c1 Sign.plus) c2 Sign.minus)
          c3 Sign.plus
      let gates :=
        dset (dset (dset (dset (dset (dset (dset (dset (dset st.gates
          (l, r) c3) (r, c1) c3) (c1, c2) c3) (c2, c3) c1) (c3, l) r)
          (r, c3) l) (c3, r) c1) (c3, c1) c2) (c1, c3) r
      let v1 := fupd st.valences c2 (st.valences c2 - 1)
      let v2 := fupd v1 c3 (v1 c3 + 1)
      let v3 := fupd v2 l (v2 l - 1)
      let p1 := fupd st.patches r (ringReplace front c3 (st.patches r))
      let p2 := fupd p1 c1 (ringReplace front c3 (p1 c1))
      let p3 := fupd p2 c2 (ringRemove front (p2 c2))
      let p4 := fupd p3 c3 (ringInsert2 front r c1 (p3 c3))
      let p5 := fupd p4 l (ringRemove front (p4 l))
      ({ st with signs := signs, gates := gates, valences := v3, patches := p5 },
       [Rec.F front c0 c1, Rec.F front c1 c2, Rec.F front c2 c3, Rec.F front c3 c4,
        Rec.F front c4 c0,
        Rec.DF l r c3, Rec.DF c1 r c3, Rec.DF c1 c2 c3])
    else
      let signs :=
        signIfUnset (signIfUnset (signIfUnset st.signs c1 Sign.minus) c2 Sign.plus)
          c3 Sign.minus
      let gates :=
        dset (dset (dset (dset (dset (dset (dset (dset (dset st.gates
          (l, r) c2) (r, c1) c2) (c1, c2) r) (c2, c3) l) (c3, l) c2)
          (r, c2) l) (c2, r) c1) (c2, l) r) (l, c2) c3
      let v1 := fupd st.valences c1 (st.valences c1 - 1)
      let v2 := fupd v1 c2 (v1 c2 + 1)
      let v3 := fupd v2 c3 (v2 c3 - 1)
      let p1 := fupd st.patches r (ringReplace front c2 (st.patches r))
      let p2 := fupd p1 c1 (ringRemove front (p1 c1))
      let p3 := fupd p2 c2 (ringInsert2 front l r (p2 c2))
      let p4 := fupd p3 c3 (ringRemove front (p3 c3))
      let p5 := fupd p4 l (ringReplace front c2 (p4 l))
      ({ st with signs := signs, gates := gates, valences := v3, patches := p5 },
       [Rec.F front c0 c1, Rec.F front c1 c2, Rec.F front c2 c3, Rec.F front c3 c4,
        Rec.F front c4 c0,
        Rec.DF l r c2, Rec.DF c1 r c2, Rec.DF l c2 c3])
  else if valence = 6 then
    if rs = Sign.minus then
      let signs :=
        signIfUnset (signIfUnset (signIfUnset (signIfUnset st.signs
          c1 Sign.plus) c2 Sign.minus) c3 Sign.plus) c4 Sign.minus
      let gates :=
        dset (dset (dset (dset (dset (dset (dset (dset (dset (dset (dset (dset st.gates
          (l, r) c1) (r, c1) l) (c1, c2) c3) (c2, c3) c1) (c3, c4) l) (c4, l) c3)
          (l, c1) c3) (c1, l) r) (c3, c1) c2) (c1, c3) l) (l, c3) c4) (c3, l) c1
      let v1 := fupd st.valences r (st.valences r - 1)
      let v2 := fupd v1 c1 (v1 c1 + 1)
      let v3 := fupd v2 c2 (v2 c2 - 1)
      let v4 := fupd v3 c3 (v3 c3 + 1)
      let v5 := fupd v4 c4 (v4 c4 - 1)
      let v6 := fupd v5 l (v5 l + 1)
      let p1 := fupd st.patches r (ringRemove front (st.patches r))
      let p2 := fupd p1 c1 (ringInsert2 front c3 l (p1 c1))
      let p3 := fupd p2 c2 (ringRemove front (p2 c2))
      let p4 := fupd p3 c3 (ringInsert2 front l c1 (p3 c3))
      let p5 := fupd p4 c4 (ringRemove front (p4 c4))
      let p6 := fupd p5 l (ringInsert2 front c1 c3 (p5 l))
      ({ st with signs := signs, gates := gates, valences := v6, patches := p6 },
       [Rec.F front c0 c1, Rec.F front c1 c2, Rec.F front c2 c3, Rec.F front c3 c4,
        Rec.F front c4 c5, Rec.F front c5 c0,
        Rec.DF l r c1, Rec.DF c1 c3 c2, Rec.DF c3 l c4])
    else
      let signs :=
        signIfUnset (signIfUnset (signIfUnset (signIfUnset st.signs
          c1 Sign.minus) c2 Sign.plus) c3 Sign.minus) c4 Sign.plus
      let gates :=
        dset (dset (dset (dset (dset (dset (dset (dset (dset (dset (dset (dset st.gates
          (l, r) c4) (r, c1) c2) (c1, c2) r) (c2, c3) c4) (c3, c4) c2) (c4, l) r)
          (r, c4) l) (c4, r) c2) (c4, c2) c3) (c2, c4) r) (r, c2) c4) (c2, r) c1
      let v1 := fupd st.valences r (st.valences r + 1)
      let v2 := fupd v1 c1 (v1 c1 - 1)
      let v3 := fupd v2 c2 (v2 c2 + 1)
      let v4 := fupd v3 c3 (v3 c3 - 1)
      let v5 := fupd v4 c4 (v4 c4 + 1)
      let v6 := fupd v5 l (v5 l - 1)
      let p1 := fupd st.patches r (ringInsert2 front c2 c4 (st.patches r))
      let p2 := fupd p1 c1 (ringRemove front (p1 c1))
      let p3 := fupd p2 c2 (ringInsert2 front c4 r (p2 c2))
      let p4 := fupd p3 c3 (ringRemove front (p3 c3))
      let p5 := fupd p4 c4 (ringInsert2 front r c2 (p4 c4))
      let p6 := fupd p5 l (ringRemove front (p5 l))
      ({ st with signs := signs, gates := gates, valences := v6, patches := p6 },
       [Rec.F front c0 c1, Rec.F front c1 c2, Rec.F front c2 c3, Rec.F front c3 c4,
        Rec.F front c4 c5, Rec.F front c5 c0,
        Rec.DF c2 r c1, Rec.DF c2 c3 c4, Rec.DF c4 l r])
  else
    (st, [])

/-- `retriangulation` of src/src/tools.py (lines 360-364 + body): first
reads `plus_minus[left]` and `plus_minus[right]` — a missing entry is a
Python `KeyError`, embedded as `none`. -/
def retriangulation (chain : List Nat) (l r front : Nat) (st : MState) :
    Option (MState × List Rec) :=
  match st.signs l, st.signs r with
  | some ls, some rs => some (retriangulationBody chain l r front ls rs st)
  | _, _ => none

/-- Dequeue-time status marking `vertices_status[left] = vertices_status[right]
= 'conquered'` (src/src/tools.py lines 300-301). -/
def markLR (st : MState) (l r : Nat) : MState :=
  { st with vstat := fupd (fupd st.vstat l true) r true }

/-- `for vertex in chain: gates.pop((front, vertex)); gates.pop((vertex, front))`
(src/src/tools.py lines 334-336); `none` embeds the `KeyError` a missing key
would raise. -/
def popGatesFor : Gates → Nat → List Nat → Option Gates
  | g, _, [] => some g
  | g, front, x :: xs =>
    match dpopE g (front, x) with
    | none => none
    | some g1 =>
      match dpopE g1 (x, front) with
      | none => none
      | some g2 => popGatesFor g2 front xs

/-- `chain = np.append(chain[i:], chain[:i])` with `i = np.where(chain ==
right)[0][0]` — rotate the ring so `right` comes first. -/
def rotateTo (chain : List Nat) (r : Nat) : List Nat :=
  let i := chain.indexOf r
  chain.drop i ++ chain.take i

/-- Null-face parity write of `decimating_conquest` in src/src/tools.py
(lines 348-349): `if plus_minus.get(front) is None: plus_minus[front] = '+'`. -/
def nullParityUpdate (pm : Nat → Option Sign) (front : Nat) : Nat → Option Sign :=
  if pm front = none then fupd pm front (some Sign.plus) else pm

/-- Null-face parity write of the module-level decimating loop in
src/lossless_transmission.py (line 477): `plus_minus[front] = '+'`, with no
guard on an already-assigned parity. -/
def nullParityUpdateLT (pm : Nat → Option Sign) (front : Nat) : Nat → Option Sign :=
  fupd pm front (some Sign.plus)

/-- One iteration of the `while len(fifo) > 0` loop of `decimating_conquest`
(src/src/tools.py lines 295-357).  Returns the new state, the new FIFO and
the records appended to `obja`; `.error ()` embeds an uncaught Python
exception (the unguarded `front = gates[gate]` lookup, a failed `pop`, or an
empty `np.where` result). -/
def decimating_conquest_step (st : MState) (fifo : List (Nat × Nat)) :
    Except Unit (MState × List (Nat × Nat) × List Rec) :=
  match fifo with
  | [] => .ok (st, [], [])
  | (l, r) :: rest =>
    let st1 := markLR st l r
    match dget st1.gates (l, r) with
    | none => .error ()
    | some front =>
      if st1.fstat (l, r) ≠ none then
        .ok (st1, rest, [])
      else if st1.valences front ≤ 6 ∧ st1.vstat front = false then
        let chain0 := st1.patches front
        let st2 :=
          { st1 with vstat := chain0.foldl (fun f x => fupd f x true) st1.vstat }
        if r ∈ chain0 then
          let chain := rotateTo chain0 r
          let pairs := chain.zip (chain.drop 1)
          let fifo2 := rest ++ pairs.map (fun p => (p.2, p.1))
          let st3 :=
            { st2 with fstat :=
                pairs.foldl (fun f p => fupd f p (some FStat.conquered)) st2.fstat }
          let st4 := { st3 with active := st3.active.erase front }
          match popGatesFor st4.gates front chain with
          | none => .error ()
          | some g2 =>
            match retriangulation chain l r front { st4 with gates := g2 } with
            | none => .error ()
            | some (st5, recs) => .ok (st5, fifo2, Rec.V front :: recs)
        else .error ()
      else if (st1.vstat front = false ∧ st1.valences front > 6) ∨ st1.vstat front = true then
        let st2 := { st1 with fstat := fupd st1.fstat (l, r) (some FStat.null) }
        let st3 := { st2 with signs := nullParityUpdate st2.signs front }
        .ok (st3, rest ++ [(front, r), (l, front)], [])
      else
        .ok (st1, rest, [])

/-- Per-ring-point loop of the valence-3 removal in `cleaning_conquest`
(src/src/tools.py lines 806-811): decrement the valence and pop the two
gates incident to `front` for each ring point. -/
def cleanPointLoop (front : Nat) :
    List Nat → (Nat → Int) → Gates → Option ((Nat → Int) × Gates)
  | [], v, g => some (v, g)
  | p :: rest, v, g =>
    let v1 := fupd v p (v p - 1)
    match dpopE g (front, p) with
    | none => none
    | some g1 =>
      match dpopE g1 (p, front) with
      | none => none
      | some g2 => cleanPointLoop front rest v1 g2

/-- Valence-3 removal body of `cleaning_conquest` (src/src/tools.py lines
793-839).  Emits `V` and three `F` records; the `df` emission on line 839
is commented out in the source, so no `DF` record is produced.  Returns the
new state, the records, the new `count_v`, and the two outward gate targets
`front_1`, `front_2` used to extend the FIFO; `none` embeds an uncaught
`KeyError`. -/
def cleaning_remove (front : Nat) (chain : List Nat) (st : MState) (countV : Nat) :
    Option (MState × List Rec × Nat × Nat × Nat) :=
  let c0 := chain.getD 0 0
  let c1 := chain.getD 1 0
  let c2 := chain.getD 2 0
  let active2 := st.active.erase front
  match cleanPointLoop front chain st.valences st.gates with
  | none => none
  | some (val2, g2) =>
    let g3 := dset (dset (dset g2 (c0, c1) c2) (c1, c2) c0) (c2, c0) c1
    let patches2 :=
      chain.foldl (fun f x => fupd f x (ringRemove front (f x))) st.patches
    let vstat2 := chain.foldl (fun f x => fupd f x true) st.vstat
    let fstat2 :=
      fupd (fupd st.fstat (c1, c0) (some FStat.conquered))
        (c2, c1) (some FStat.conquered)
    match dget g3 (c1, c0) with
    | none => none
    | some f1 =>
      match dget g3 (c2, c1) with
      | none => none
      | some f2 =>
        some ({ st with active := active2, valences := val2, gates := g3,
                        patches := patches2, vstat := vstat2, fstat := fstat2 },
              [Rec.V front, Rec.F front c0 c1, Rec.F front c1 c2, Rec.F front c2 c0],
              countV + 1, f1, f2)

/-- One iteration of the `while len(fifo) > 0` loop of `cleaning_conquest`
(src/src/tools.py lines 773-864).  `done` embeds the `done` set of already
dequeued gates; `.error ()` embeds an uncaught Python exception (the
unguarded `front = gates[gate]` lookup or a failure inside the removal). -/
def cleaning_step (st : MState) (done : List (Nat × Nat)) (fifo : List (Nat × Nat))
    (countV : Nat) :
    Except Unit (MState × List (Nat × Nat) × List (Nat × Nat) × List Rec × Nat) :=
  match fifo with
  | [] => .ok (st, done, [], [], countV)
  | (l, r) :: rest =>
    if (l, r) ∈ done then
      .ok (st, done, rest, [], countV)
    else
      let done2 := (l, r) :: done
      match dget st.gates (l, r) with
      | none => .error ()
      | some front =>
        let chain := st.patches front
        if st.fstat (l, r) ≠ none then
          .ok (st, done2, rest, [], countV)
        else if st.valences front = 3 ∧ st.vstat front = false then
          let purged := rest.filter (fun p => !(decide (p.1 = front) || decide (p.2 = front)))
          match cleaning_remove front chain st countV with
          | none => .error ()
          | some (st2, recs, cv2, f1, f2) =>
            let c0 := chain.getD 0 0
            let c1 := chain.getD 1 0
            let c2 := chain.getD 2 0
            .ok (st2, done2, purged ++ [(f1, c0), (c1, f1), (f2, c1), (c2, f2)], recs, cv2)
        else if st.valences front ≤ 6 ∧ st.vstat front = false then
          if r ∈ chain then
            let chain2 := rotateTo chain r
            let pairs := chain2.zip (chain2.drop 1)
            let st2 :=
              { st with fstat :=
                  pairs.foldl (fun f p => fupd f p (some FStat.conquered)) st.fstat }
            .ok (st2, done2, rest ++ pairs.map (fun p => (p.2, p.1)), [], countV)
          else .error ()
        else if (st.vstat front = false ∧ st.valences front > 6) ∨ st.vstat front = true then
          let st2 := { st with fstat := fupd st.fstat (l, r) (some FStat.null) }
          .ok (st2, done2, rest ++ [(front, r), (l, front)], [], countV)
        else
          .ok (st, done2, rest, [], countV)

/-- Fueled driver of the `cleaning_conquest` FIFO loop. -/
def cleaning_run (fuel : Nat) (st : MState) (done : List (Nat × Nat))
    (fifo : List (Nat × Nat)) (obja : List Rec) (countV : Nat) :
    Option (List Rec × Nat) :=
  match fuel with
  | 0 => none
  | fuel + 1 =>
    match fifo with
    | [] => some (obja, countV)
    | _ =>
      match cleaning_step st done fifo countV with
      | .error _ => none
      | .ok (st2, done2, fifo2, recs, cv2) =>
        cleaning_run fuel st2 done2 fifo2 (obja ++ recs) cv2

/-- `cleaning_conquest` (src/src/tools.py lines 753-865).  The entry scan
(lines 760-765) looks for an active vertex of valence 3; when none exists
the Python function executes a bare `return`, i.e. returns `None` — here
`none` — instead of the `(obja, count_v)` pair its caller unpacks. -/
def cleaning_conquest (fuel : Nat) (st : MState) (fifo : List (Nat × Nat))
    (obja : List Rec) (countV : Nat) : Option (List Rec × Nat) :=
  match st.active.find? (fun v => decide (st.valences v = 3)) with
  | none => none
  | some v =>
    let chain := st.patches v
    cleaning_run fuel st [] (fifo ++ [(chain.getD 0 0, chain.getD 1 0)]) obja countV

/-- Valence-2 removal body of `sew_conquest` (src/src/tools.py lines
904-947), for ring neighbours `w0 = chain[0]`, `w1 = chain[1]`.  `none` embeds the `KeyError` path of the enclosing
`try/except` (in which Python keeps the partial mutations and moves on; no
claim exercises that path). -/
def sew_remove (v w0 w1 : Nat) (st : MState) (countV : Nat) :
    Option (MState × List Rec × Nat) :=
  let active2 := st.active.erase v
  match dpopE st.gates (w0, v) with
  | none => none
  | some g1 =>
    match dpopE g1 (w1, v) with
    | none => none
    | some g2 =>
      match dpopE g2 (v, w0) with
      | none => none
      | some g3 =>
        match dpopE g3 (v, w1) with
        | none => none
        | some g4 =>
          let recs0 := [Rec.V v, Rec.F v w0 w1]
          let pa := ringRemove v (st.patches w0)
          let k0 := pa.indexOf w1
          let pa2 := pa.eraseIdx k0
          let patches1 := fupd st.patches w0 pa2
          let val1 := fupd st.valences w0 (st.valences w0 - 2)
          let pb := ringRemove v (patches1 w1)
          let k1 := pb.indexOf w0
          let pb2 := pb.eraseIdx k1
          let patches2 := fupd patches1 w1 pb2
          let val2 := fupd val1 w1 (val1 w1 - 2)
          let pc := patches2 w0
          let ka := pc.indexOf w1
          let t1 := pc.getD (if ka = 0 then pc.length - 1 else ka - 1) 0
          let g5 := dset g4 (w1, w0) t1
          let pd := patches2 w1
          let kb := pd.indexOf w0
          let t2 := pd.getD (if kb = 0 then pd.length - 1 else kb - 1) 0
          let g6 := dset g5 (w0, w1) t2
          some ({ st with active := active2, gates := g6, patches := patches2,
                          valences := val2 },
                recs0 ++ [Rec.DF w0 w1 t1, Rec.DF w0 w1 t2], countV + 1)

/-- Per-vertex guard of the `sew_conquest` sweep (src/src/tools.py lines
901-905): only vertices of valence 2 are processed, and `chain =
patches[vertex]` supplies the two ring neighbours `chain[0]`, `chain[1]`
to the removal body. -/
def sew_conquest_vertex (v : Nat) (st : MState) (countV : Nat) :
    Option (MState × List Rec × Nat) :=
  if st.valences v = 2 then
    sew_remove v ((st.patches v).getD 0 0) ((st.patches v).getD 1 0) st countV
  else some (st, [], countV)

/-- Gate construction of `preprocessing` from the face list
(src/src/tools.py lines 124-133): each face `(a, b, c)` registers the three
gates `(a,b) ↦ c`, `(b,c) ↦ a`, `(c,a) ↦ b`. -/
def build_gates (faces : List (Nat × Nat × Nat)) : Gates :=
  faces.foldl
    (fun g f =>
      dset (dset (dset g (f.1, f.2.1) f.2.2) (f.2.1, f.2.2) f.1) (f.2.2, f.1) f.2.1)
    []

/-- Patch-fragment collection of `preprocessing` (src/src/tools.py lines
149-161): the unordered consecutive-pair fragments appended to
`patches[v]` while reading the face list. -/
def patchFragments (faces : List (Nat × Nat × Nat)) (v : Nat) : List (Nat × Nat) :=
  faces.foldl
    (fun acc f =>
      let acc1 := if f.1 = v then acc ++ [(f.2.1, f.2.2)] else acc
      let acc2 := if f.2.1 = v then acc1 ++ [(f.2.2, f.1)] else acc1
      if f.2.2 = v then acc2 ++ [(f.1, f.2.1)] else acc2)
    []

/-- Python `edges.remove(edge)`: drop the first occurrence. -/
def removeEdge : List (Nat × Nat) → (Nat × Nat) → List (Nat × Nat)
  | [], _ => []
  | e :: t, x => if e = x then t else e :: removeEdge t x

/-- The chaining `while` loop of `preprocessing` (src/src/tools.py lines
170-179): repeatedly find the fragment starting at the current end and
append its endpoint; the `for ... else` breaks out when none matches. -/
def chainEdgesGo : Nat → Nat → List Nat → List (Nat × Nat) → List Nat × List (Nat × Nat)
  | 0, _, acc, edges => (acc, edges)
  | fuel + 1, endv, acc, edges =>
    if edges.length > 1 then
      match edges.find? (fun e => decide (e.1 = endv)) with
      | some e => chainEdgesGo fuel e.2 (acc ++ [e.2]) (removeEdge edges e)
      | none => (acc, edges)
    else (acc, edges)

/-- Ring chaining of `preprocessing` (src/src/tools.py lines 164-179):
start from the first fragment and chain the rest. -/
def chainEdges : List (Nat × Nat) → List Nat × List (Nat × Nat)
  | [] => ([], [])
  | (s, e) :: rest => chainEdgesGo rest.length e [s, e] rest

/-- Ring of one vertex from the face list; `none` when more than one
fragment is left over, i.e. the non-manifold duplication branch of
src/src/tools.py lines 181-254, which no claim exercises. -/
def ringOf (faces : List (Nat × Nat × Nat)) (v : Nat) : Option (List Nat) :=
  let r := chainEdges (patchFragments faces v)
  if r.2.length > 1 then none else some r.1

/-- All vertex ids appearing in the face list. -/
def verticesOf (faces : List (Nat × Nat × Nat)) : List Nat :=
  (faces.foldl (fun acc f => acc ++ [f.1, f.2.1, f.2.2]) []).dedup

/-- The ordered patches built by `preprocessing` for a manifold face list. -/
def preprocessing_rings (faces : List (Nat × Nat × Nat)) : Option (Nat → List Nat) :=
  if (verticesOf faces).all (fun v => (ringOf faces v).isSome) then
    some (fun v => (ringOf faces v).getD [])
  else none

/-- The final gate-rearrangement block of `preprocessing`
(src/src/tools.py lines 258-271): every key `(a, b)` with `b` in the ring
of `a` — which holds for every gate of a closed mesh — is replaced by
`(b, a)`, and the stored value becomes `patches[b].tolist().index(a)`, a
ring INDEX rather than an opposite-vertex id. -/
def reorder_gates (g : Gates) (rings : Nat → List Nat) : Gates :=
  g.map (fun p =>
    if p.1.2 ∈ rings p.1.1 then ((p.1.2, p.1.1), (rings p.1.2).indexOf p.1.1)
    else (p.1, (rings p.1.1).indexOf p.1.2))

/-- Gate table produced by `preprocessing` from a face list: the
construction loop followed by the rearrangement block. -/
def preprocessing_gates (faces : List (Nat × Nat × Nat)) : Option Gates :=
  (preprocessing_rings faces).map (fun rings => reorder_gates (build_gates faces) rings)

/-- Number of `V` records in a stream. -/
def countVrec (l : List Rec) : Nat :=
  (l.filter (fun x => match x with | Rec.V _ => true | _ => false)).length

/-- Number of `F` records in a stream. -/
def countF (l : List Rec) : Nat :=
  (l.filter (fun x => match x with | Rec.F _ _ _ => true | _ => false)).length

/-- Number of `DF` records in a stream. -/
def countDF (l : List Rec) : Nat :=
  (l.filter (fun x => match x with | Rec.DF _ _ _ => true | _ => false)).length

/-- Records emitted by one decimating step. -/
def recsOf : Except Unit (MState × List (Nat × Nat) × List Rec) → List Rec
  | .ok (_, _, recs) => recs
  | .error _ => []

/-- Discriminator for the uncaught-exception outcome of a step. -/
def isError {α : Type} : Except Unit α → Bool
  | .error _ => true
  | .ok _ => false

/-- The gate table encodes the CCW triangle `(a, b, c)`: the three entries
`(a,b) ↦ c`, `(b,c) ↦ a`, `(c,a) ↦ b` are present. -/
def encodesFace (g : Gates) (a b c : Nat) : Prop :=
  dget g (a, b) = some c ∧ dget g (b, c) = some a ∧ dget g (c, a) = some b

instance (g : Gates) (a b c : Nat) : Decidable (encodesFace g a b c) :=
  inferInstanceAs (Decidable (_ ∧ _ ∧ _))

/-- Face list of the tetrahedron scenario of the spec (§8): vertices 1-4,
faces (1,2,3), (1,3,4), (1,4,2), (2,4,3). -/
def tetraFaces : List (Nat × Nat × Nat) := [(1, 2, 3), (1, 3, 4), (1, 4, 2), (2, 4, 3)]

/-- Tetrahedron state after preprocessing (gate table from the face-reading
loop, rings as chained by `preprocessing`), with the seeding
`plus_minus[left] = '-'`, `plus_minus[right] = '+'` for initial gate (1,2). -/
def tetraState : MState where
  gates := build_gates tetraFaces
  valences := fun _ => 3
  patches := fun v =>
    if v = 1 then [2, 3, 4] else if v = 2 then [3, 1, 4]
    else if v = 3 then [1, 2, 4] else if v = 4 then [1, 3, 2] else []
  active := [1, 2, 3, 4]
  signs := fun v =>
    if v = 1 then some Sign.minus else if v = 2 then some Sign.plus else none
  vstat := fun _ => false
  fstat := fun _ => none

/-- The gates incident to a front vertex, one pair per ring neighbour. -/
def ringGates (front : Nat) (ring : List Nat) : Gates :=
  (ring.map (fun x => ((front, x), 0))) ++ (ring.map (fun x => ((x, front), 0)))

/-- A state poised to remove `front` of the given ring through the gate
`(l, r)`: the entry gate targets `front`, the incident gates exist, `l`
carries `'-'` and `r` carries `rsign`. -/
def mkDecState (front : Nat) (ring : List Nat) (l r : Nat) (rsign : Sign) : MState where
  gates := ((l, r), front) :: ringGates front ring
  valences := fun v => if v = front then (ring.length : Int) else 4
  patches := fun v => if v = front then ring else []
  active := [1, 2, 3, 4, 5, 6, 7, 8]
  signs := fun v =>
    if v = l then some Sign.minus else if v = r then some rsign else none
  vstat := fun _ => false
  fstat := fun _ => none

/-- State for a cleaning-pass removal of vertex 4 (valence 3, ring
[1, 2, 3]): incident gates plus the two outward gates `(2,1) ↦ 6` and
`(3,2) ↦ 7` consulted after the rewrite. -/
def stCleanEx : MState where
  gates := [((2, 1), 6), ((3, 2), 7)] ++ ringGates 4 [1, 2, 3]
  valences := fun v => if v = 4 then 3 else 5
  patches := fun v => if v = 4 then [1, 2, 3] else [4, 9, 9]
  active := [1, 2, 3, 4]
  signs := fun _ => none
  vstat := fun _ => false
  fstat := fun _ => none

/-- Octahedron-like state: six active vertices, all of valence 4. -/
def stOcta : MState where
  gates := []
  valences := fun _ => 4
  patches := fun _ => []
  active := [1, 2, 3, 4, 5, 6]
  signs := fun _ => none
  vstat := fun _ => false
  fstat := fun _ => none

/-- A state whose gate table is empty, so any dequeued gate is missing. -/
def stEmptyGates : MState where
  gates := []
  valences := fun _ => 3
  patches := fun _ => []
  active := []
  signs := fun _ => none
  vstat := fun _ => false
  fstat := fun _ => none

/-- Parity map with vertex 5 already tagged MINUS. -/
def pmEx : Nat → Option Sign := fun v => if v = 5 then some Sign.minus else none

/-- C1: the engine cannot be losslessly reversed as claimed.  The cleaning
pass's valence-3 removal (src/src/tools.py lines 793-839) emits one `V` and
three `F` records but NO `DF` record — the `df` line is commented out — so
the reverse replay has no marker for the face `(chain[0],chain[1],chain[2])`
that the removal created and cannot restore the pre-removal face set.
Evaluated here on a concrete valence-3 removal. -/
theorem c1_cleaning_removal_emits_no_df :
    (cleaning_remove 4 [1, 2, 3] stCleanEx 1).map (fun x => x.2.1) =
      some [Rec.V 4, Rec.F 4 1 2, Rec.F 4 2 3, Rec.F 4 3 1] ∧
    (cleaning_remove 4 [1, 2, 3] stCleanEx 1).map (fun x => countDF x.2.1) = some 0 := by
  decide

/-- C2: record counts of the decimating removal of a front vertex of
valence v.  For v = 3, 4, 5 the pass appends one `V`, v `F` and v−2 `DF`
records, but for v = 6 BOTH branches of the case table emit only 3 `DF`
records for the 4 new faces (src/src/tools.py lines 681-683 and 747-749),
so the claimed count v−2 = 4 fails at valence 6. -/
theorem c2_decimation_record_counts :
    (countVrec (recsOf (decimating_conquest_step tetraState [(1, 2)])) = 1 ∧
      countF (recsOf (decimating_conquest_step tetraState [(1, 2)])) = 3 ∧
      countDF (recsOf (decimating_conquest_step tetraState [(1, 2)])) = 1) ∧
    (countVrec (recsOf (decimating_conquest_step
        (mkDecState 1 [2, 3, 4, 5] 5 2 Sign.minus) [(5, 2)])) = 1 ∧
      countF (recsOf (decimating_conquest_step
        (mkDecState 1 [2, 3, 4, 5] 5 2 Sign.minus) [(5, 2)])) = 4 ∧
      countDF (recsOf (decimating_conquest_step
        (mkDecState 1 [2, 3, 4, 5] 5 2 Sign.minus) [(5, 2)])) = 2) ∧
    (countVrec (recsOf (decimating_conquest_step
        (mkDecState 1 [2, 3, 4, 5] 5 2 Sign.plus) [(5, 2)])) = 1 ∧
      countF (recsOf (decimating_conquest_step
        (mkDecState 1 [2, 3, 4, 5] 5 2 Sign.plus) [(5, 2)])) = 4 ∧
      countDF (recsOf (decimating_conquest_step
        (mkDecState 1 [2, 3, 4, 5] 5 2 Sign.plus) [(5, 2)])) = 2) ∧
    (countVrec (recsOf (decimating_conquest_step
        (mkDecState 1 [2, 3, 4, 5, 6] 6 2 Sign.plus) [(6, 2)])) = 1 ∧
      countF (recsOf (decimating_conquest_step
        (mkDecState 1 [2, 3, 4, 5, 6] 6 2 Sign.plus) [(6, 2)])) = 5 ∧
      countDF (recsOf (decimating_conquest_step
        (mkDecState 1 [2, 3, 4, 5, 6] 6 2 Sign.plus) [(6, 2)])) = 3) ∧
    (countVrec (recsOf (decimating_conquest_step
        (mkDecState 1 [2, 3, 4, 5, 6, 7] 7 2 Sign.minus) [(7, 2)])) = 1 ∧
      countF (recsOf (decimating_conquest_step
        (mkDecState 1 [2, 3, 4, 5, 6, 7] 7 2 Sign.minus) [(7, 2)])) = 6 ∧
      countDF (recsOf (decimating_conquest_step
        (mkDecState 1 [2, 3, 4, 5, 6, 7] 7 2 Sign.minus) [(7, 2)])) = 3) ∧
    (countVrec (recsOf (decimating_conquest_step
        (mkDecState 1 [2, 3, 4, 5, 6, 7] 7 2 Sign.plus) [(7, 2)])) = 1 ∧
      countF (recsOf (decimating_conquest_step
        (mkDecState 1 [2, 3, 4, 5, 6, 7] 7 2 Sign.plus) [(7, 2)])) = 6 ∧
      countDF (recsOf (decimating_conquest_step
        (mkDecState 1 [2, 3, 4, 5, 6, 7] 7 2 Sign.plus) [(7, 2)])) = 3) ∧
    (3 : Nat) ≠ 6 - 2 := by
  decide

/-- C3: on the tetrahedron face list the face-reading loop builds the gate
table of the claim — e.g. `(2,1) ↦ 4`, the third vertex of face (1,4,2),
and every face is encoded — but the final rearrangement block of
`preprocessing` (src/src/tools.py lines 258-271) then replaces the stored
value by a RING INDEX: the constructed table maps `(2,1)` to `1`, the
position of vertex 1 inside `patches[2] = [3,1,4]`, not to the opposite
vertex 4.  This contradicts both the claim and the function's own
docstring ("a third vertex index"). -/
theorem c3_preprocessing_gate_values :
    encodesFace (build_gates tetraFaces) 1 2 3 ∧
    encodesFace (build_gates tetraFaces) 1 3 4 ∧
    encodesFace (build_gates tetraFaces) 1 4 2 ∧
    encodesFace (build_gates tetraFaces) 2 4 3 ∧
    dget (build_gates tetraFaces) (2, 1) = some 4 ∧
    (preprocessing_gates tetraFaces).map (fun g => dget g (2, 1)) = some (some 1) ∧
    (1 : Nat) ≠ 4 := by
  decide

/-- C6: the guarded null-face parity write of src/src/tools.py keeps an
already-assigned MINUS, but the module-level decimating loop of
src/lossless_transmission.py (line 477, marked `TODO`) writes PLUS
unconditionally, overwriting the assigned parity — contradicting the claim
for that implementation. -/
theorem c6_parity_overwrite :
    pmEx 5 = some Sign.minus ∧
    nullParityUpdate pmEx 5 5 = some Sign.minus ∧
    nullParityUpdateLT pmEx 5 5 = some Sign.plus := by
  decide

/-- C7 (counterexample): dequeuing a gate that is absent from the gate
table does NOT skip: the unguarded lookup `front = gates[gate]`
(src/src/tools.py line 305, and line 782 for the cleaning pass) raises
`KeyError` — embedded as the error outcome — instead of continuing with
the next FIFO entry. -/
theorem c7_gate_missing_counterexample :
    isError (decimating_conquest_step stEmptyGates [(1, 2)]) = true ∧
    isError (cleaning_step stEmptyGates [] [(1, 2)] 1) = true := by
  decide

/-- C8: when no active vertex has valence 3 the entry scan of
`cleaning_conquest` (src/src/tools.py lines 760-765) executes a bare
`return`: the function yields `None`, not the `(obja, count_v)` pair —
its caller `simplify_mesh` (src/src/main.py line 57) unpacks two values
and would raise `TypeError`. -/
theorem c8_cleaning_no_valence3_returns_none :
    (∀ v ∈ stOcta.active, stOcta.valences v ≠ 3) ∧
    cleaning_conquest 10 stOcta [] [] 1 = none := by
  decide

/-- Gate table produced by the valence-6 `else` row of the case table
(src/src/tools.py lines 684-709) for a ring rotated so that `r` is first:
`chain = [r, c1, c2, c3, c4, l]`, entry gate `(l, r)` with `right` not
tagged MINUS. -/
def retri6ElseGates (l r c1 c2 c3 c4 front : Nat) (ls : Sign) (st : MState) : Gates :=
  (retriangulationBody [r, c1, c2, c3, c4, l] l r front ls Sign.plus st).1.gates

/-- C4: when the retriangulator processes a removed vertex of valence 6 and
the right endpoint of the entry gate is not tagged MINUS, the final gate
table encodes exactly the four faces `(right,c1,c2)`, `(right,c2,c4)`,
`(c2,c3,c4)` and `(left,right,c4)`: the twelve written entries are their
face gates, and every other key keeps its previous binding. -/
theorem c4_valence6_else_gate_table
    (l r c1 c2 c3 c4 front : Nat) (ls : Sign) (st : MState)
    (hval : st.valences front = 6)
    (hnd : List.Nodup [l, r, c1, c2, c3, c4]) :
    encodesFace (retri6ElseGates l r c1 c2 c3 c4 front ls st) r c1 c2 ∧
    encodesFace (retri6ElseGates l r c1 c2 c3 c4 front ls st) r c2 c4 ∧
    encodesFace (retri6ElseGates l r c1 c2 c3 c4 front ls st) c2 c3 c4 ∧
    encodesFace (retri6ElseGates l r c1 c2 c3 c4 front ls st) l r c4 ∧
    ∀ k : Nat × Nat,
      k ∉ [(l, r), (r, c1), (c1, c2), (c2, c3), (c3, c4), (c4, l),
           (r, c4), (c4, r), (c4, c2), (c2, c4), (r, c2), (c2, r)] →
      dget (retri6ElseGates l r c1 c2 c3 c4 front ls st) k = dget st.gates k := by
  simp only [List.nodup_cons, List.mem_cons, List.not_mem_nil, or_false, not_or,
    List.nodup_nil, and_true] at hnd
  obtain ⟨⟨hlr, hlc1, hlc2, hlc3, hlc4⟩, ⟨hrc1, hrc2, hrc3, hrc4⟩,
    ⟨h12, h13, h14⟩, ⟨h23, h24⟩, h34, -⟩ := hnd
  have hrl := Ne.symm hlr
  have hc1l := Ne.symm hlc1
  have hc2l := Ne.symm hlc2
  have hc3l := Ne.symm hlc3
  have hc4l := Ne.symm hlc4
  have hc1r := Ne.symm hrc1
  have hc2r := Ne.symm hrc2
  have hc3r := Ne.symm hrc3
  have hc4r := Ne.symm hrc4
  have h21 := Ne.symm h12
  have h31 := Ne.symm h13
  have h41 := Ne.symm h14
  have h32 := Ne.symm h23
  have h42 := Ne.symm h24
  have h43 := Ne.symm h34
  have hbody : retri6ElseGates l r c1 c2 c3 c4 front ls st =
      dset (dset (dset (dset (dset (dset (dset (dset (dset (dset (dset (dset st.gates
        (l, r) c4) (r, c1) c2) (c1, c2) r) (c2, c3) c4) (c3, c4) c2) (c4, l) r)
        (r, c4) l) (c4, r) c2) (c4, c2) c3) (c2, c4) r) (r, c2) c4) (c2, r) c1 := by
    simp [retri6ElseGates, retriangulationBody, hval]
  refine ⟨⟨?_, ?_, ?_⟩, ⟨?_, ?_, ?_⟩, ⟨?_, ?_, ?_⟩, ⟨?_, ?_, ?_⟩, ?_⟩ <;>
    rw [hbody]
  · simp [dget_dset, Prod.mk.injEq, hrc1, hrc2, hrc3, hrc4, h12, h13, h14, h23, h24, h34,
      hc1r, hc2r, hc3r, hc4r, h21, h31, h41, h32, h42, h43, hlr, hrl,
      hlc1, hlc2, hlc3, hlc4, hc1l, hc2l, hc3l, hc4l]
  · simp [dget_dset, Prod.mk.injEq, hrc1, hrc2, hrc3, hrc4, h12, h13, h14, h23, h24, h34,
      hc1r, hc2r, hc3r, hc4r, h21, h31, h41, h32, h42, h43, hlr, hrl,
      hlc1, hlc2, hlc3, hlc4, hc1l, hc2l, hc3l, hc4l]
  · simp [dget_dset, Prod.mk.injEq, hrc1, hrc2, hrc3, hrc4, h12, h13, h14, h23, h24, h34,
      hc1r, hc2r, hc3r, hc4r, h21, h31, h41, h32, h42, h43, hlr, hrl,
      hlc1, hlc2, hlc3, hlc4, hc1l, hc2l, hc3l, hc4l]
  · simp [dget_dset, Prod.mk.injEq, hrc1, hrc2, hrc3, hrc4, h12, h13, h14, h23, h24, h34,
      hc1r, hc2r, hc3r, hc4r, h21, h31, h41, h32, h42, h43, hlr, hrl,
      hlc1, hlc2, hlc3, hlc4, hc1l, hc2l, hc3l, hc4l]
  · simp [dget_dset, Prod.mk.injEq, hrc1, hrc2, hrc3, hrc4, h12, h13, h14, h23, h24, h34,
      hc1r, hc2r, hc3r, hc4r, h21, h31, h41, h32, h42, h43, hlr, hrl,
      hlc1, hlc2, hlc3, hlc4, hc1l, hc2l, hc3l, hc4l]
  · simp [dget_dset, Prod.mk.injEq, hrc1, hrc2, hrc3, hrc4, h12, h13, h14, h23, h24, h34,
      hc1r, hc2r, hc3r, hc4r, h21, h31, h41, h32, h42, h43, hlr, hrl,
      hlc1, hlc2, hlc3, hlc4, hc1l, hc2l, hc3l, hc4l]
  · simp [dget_dset, Prod.mk.injEq, hrc1, hrc2, hrc3, hrc4, h12, h13, h14, h23, h24, h34,
      hc1r, hc2r, hc3r, hc4r, h21, h31, h41, h32, h42, h43, hlr, hrl,
      hlc1, hlc2, hlc3, hlc4, hc1l, hc2l, hc3l, hc4l]
  · simp [dget_dset, Prod.mk.injEq, hrc1, hrc2, hrc3, hrc4, h12, h13, h14, h23, h24, h34,
      hc1r, hc2r, hc3r, hc4r, h21, h31, h41, h32, h42, h43, hlr, hrl,
      hlc1, hlc2, hlc3, hlc4, hc1l, hc2l, hc3l, hc4l]
  · simp [dget_dset, Prod.mk.injEq, hrc1, hrc2, hrc3, hrc4, h12, h13, h14, h23, h24, h34,
      hc1r, hc2r, hc3r, hc4r, h21, h31, h41, h32, h42, h43, hlr, hrl,
      hlc1, hlc2, hlc3, hlc4, hc1l, hc2l, hc3l, hc4l]
  · simp [dget_dset, Prod.mk.injEq, hrc1, hrc2, hrc3, hrc4, h12, h13, h14, h23, h24, h34,
      hc1r, hc2r, hc3r, hc4r, h21, h31, h41, h32, h42, h43, hlr, hrl,
      hlc1, hlc2, hlc3, hlc4, hc1l, hc2l, hc3l, hc4l]
  · simp [dget_dset, Prod.mk.injEq, hrc1, hrc2, hrc3, hrc4, h12, h13, h14, h23, h24, h34,
      hc1r, hc2r, hc3r, hc4r, h21, h31, h41, h32, h42, h43, hlr, hrl,
      hlc1, hlc2, hlc3, hlc4, hc1l, hc2l, hc3l, hc4l]
  · simp [dget_dset, Prod.mk.injEq, hrc1, hrc2, hrc3, hrc4, h12, h13, h14, h23, h24, h34,
      hc1r, hc2r, hc3r, hc4r, h21, h31, h41, h32, h42, h43, hlr, hrl,
      hlc1, hlc2, hlc3, hlc4, hc1l, hc2l, hc3l, hc4l]
  · intro k hk
    simp only [List.mem_cons, List.not_mem_nil, or_false, not_or] at hk
    obtain ⟨q1, q2, q3, q4, q5, q6, q7, q8, q9, q10, q11, q12⟩ := hk
    simp [dget_dset, q1, q2, q3, q4, q5, q6, q7, q8, q9, q10, q11, q12]

/-- A state whose vertex 9 has valence 6, for instantiating the
valence-6 case table. -/
def stC4 : MState where
  gates := []
  valences := fun v => if v = 9 then 6 else 4
  patches := fun _ => []
  active := []
  signs := fun _ => none
  vstat := fun _ => false
  fstat := fun _ => none

/-- Witness for C4 at `l = 6`, `r = 1`, `c = [2, 3, 4, 5]`, `front = 9`. -/
theorem c4_valence6_else_gate_table_witness :
    stC4.valences 9 = 6 ∧ List.Nodup [6, 1, 2, 3, 4, 5] ∧
    encodesFace (retri6ElseGates 6 1 2 3 4 5 9 Sign.plus stC4) 1 2 3 ∧
    encodesFace (retri6ElseGates 6 1 2 3 4 5 9 Sign.plus stC4) 1 3 5 ∧
    encodesFace (retri6ElseGates 6 1 2 3 4 5 9 Sign.plus stC4) 3 4 5 ∧
    encodesFace (retri6ElseGates 6 1 2 3 4 5 9 Sign.plus stC4) 6 1 5 := by
  have h := c4_valence6_else_gate_table 6 1 2 3 4 5 9 Sign.plus stC4 (by decide) (by decide)
  exact ⟨by decide, by decide, h.1, h.2.1, h.2.2.1, h.2.2.2.1⟩

/-- Projection of a sew-removal result, with the untouched state as the
default of the (never exercised) exception path. -/
def sewResult (o : Option (MState × List Rec × Nat)) (d : MState) :
    MState × List Rec × Nat :=
  o.getD (d, [], 0)

/-- C9: for an active vertex `v` of valence 2 with ring `[w0, w1]`, the sew
sweep removes `v`, deletes its four gates, removes `v` and one duplicate
occurrence of the opposite neighbour from each neighbour's ring (so each
ring shrinks by two), decrements each neighbour's valence by 2, installs
the two direct gates `(w0,w1)` and `(w1,w0)`, and emits one `V`, one
`F(v,w0,w1)` and two `DF` records for the direct edge. -/
theorem c9_sew_valence2_removal
    (v w0 w1 : Nat) (st : MState) (cv : Nat)
    (hval2 : st.valences v = 2)
    (hchain : st.patches v = [w0, w1])
    (hv0 : v ≠ w0) (hv1 : v ≠ w1) (h01 : w0 ≠ w1)
    (hact : st.active.Nodup)
    (hg1 : (dget st.gates (w0, v)).isSome)
    (hg2 : (dget st.gates (w1, v)).isSome)
    (hg3 : (dget st.gates (v, w0)).isSome)
    (hg4 : (dget st.gates (v, w1)).isSome)
    (hc0 : (st.patches w0).count v = 1)
    (hm0 : w1 ∈ ringRemove v (st.patches w0))
    (hc1 : (st.patches w1).count v = 1)
    (hm1 : w0 ∈ ringRemove v (st.patches w1)) :
    (sew_conquest_vertex v st cv).isSome ∧
    v ∉ (sewResult (sew_conquest_vertex v st cv) st).1.active ∧
    dget (sewResult (sew_conquest_vertex v st cv) st).1.gates (w0, v) = none ∧
    dget (sewResult (sew_conquest_vertex v st cv) st).1.gates (w1, v) = none ∧
    dget (sewResult (sew_conquest_vertex v st cv) st).1.gates (v, w0) = none ∧
    dget (sewResult (sew_conquest_vertex v st cv) st).1.gates (v, w1) = none ∧
    v ∉ (sewResult (sew_conquest_vertex v st cv) st).1.patches w0 ∧
    v ∉ (sewResult (sew_conquest_vertex v st cv) st).1.patches w1 ∧
    ((sewResult (sew_conquest_vertex v st cv) st).1.patches w0).count w1 + 1 =
      (st.patches w0).count w1 ∧
    ((sewResult (sew_conquest_vertex v st cv) st).1.patches w1).count w0 + 1 =
      (st.patches w1).count w0 ∧
    ((sewResult (sew_conquest_vertex v st cv) st).1.patches w0).length + 2 =
      (st.patches w0).length ∧
    ((sewResult (sew_conquest_vertex v st cv) st).1.patches w1).length + 2 =
      (st.patches w1).length ∧
    (sewResult (sew_conquest_vertex v st cv) st).1.valences w0 = st.valences w0 - 2 ∧
    (sewResult (sew_conquest_vertex v st cv) st).1.valences w1 = st.valences w1 - 2 ∧
    (dget (sewResult (sew_conquest_vertex v st cv) st).1.gates (w0, w1)).isSome ∧
    (dget (sewResult (sew_conquest_vertex v st cv) st).1.gates (w1, w0)).isSome ∧
    ∃ t1 t2, (sewResult (sew_conquest_vertex v st cv) st).2.1 =
      [Rec.V v, Rec.F v w0 w1, Rec.DF w0 w1 t1, Rec.DF w0 w1 t2] := by
  have neA : ((w1 : Nat), v) ≠ ((w0 : Nat), v) := by simp [Ne.symm h01]
  have neB1 : ((v : Nat), w0) ≠ ((w0 : Nat), v) := by simp [hv0]
  have neB2 : ((v : Nat), w0) ≠ ((w1 : Nat), v) := by simp [hv1]
  have neC1 : ((v : Nat), w1) ≠ ((w0 : Nat), v) := by simp [hv0]
  have neC2 : ((v : Nat), w1) ≠ ((w1 : Nat), v) := by simp [hv1]
  have neC3 : ((v : Nat), w1) ≠ ((v : Nat), w0) := by simp [Ne.symm h01]
  have e1 : dpopE st.gates (w0, v) = some (dpop st.gates (w0, v)) := dpopE_of_isSome hg1
  have i2 : (dget (dpop st.gates (w0, v)) (w1, v)).isSome := by
    rw [dget_dpop, if_neg neA]; exact hg2
  have e2 : dpopE (dpop st.gates (w0, v)) (w1, v) =
      some (dpop (dpop st.gates (w0, v)) (w1, v)) := dpopE_of_isSome i2
  have i3 : (dget (dpop (dpop st.gates (w0, v)) (w1, v)) (v, w0)).isSome := by
    rw [dget_dpop, if_neg neB2, dget_dpop, if_neg neB1]; exact hg3
  have e3 : dpopE (dpop (dpop st.gates (w0, v)) (w1, v)) (v, w0) =
      some (dpop (dpop (dpop st.gates (w0, v)) (w1, v)) (v, w0)) := dpopE_of_isSome i3
  have i4 : (dget (dpop (dpop (dpop st.gates (w0, v)) (w1, v)) (v, w0)) (v, w1)).isSome := by
    rw [dget_dpop, if_neg neC3, dget_dpop, if_neg neC2, dget_dpop, if_neg neC1]; exact hg4
  have e4 : dpopE (dpop (dpop (dpop st.gates (w0, v)) (w1, v)) (v, w0)) (v, w1) =
      some (dpop (dpop (dpop (dpop st.gates (w0, v)) (w1, v)) (v, w0)) (v, w1)) :=
    dpopE_of_isSome i4
  have hgd0 : [w0, w1].getD 0 0 = w0 := rfl
  have hgd1 : [w0, w1].getD 1 0 = w1 := rfl
  simp only [sew_conquest_vertex, hval2, if_pos]
  rw [hchain]
  have hs01 : w1 ≠ w0 := Ne.symm h01
  simp only [hgd0, hgd1, sew_remove, e1, e2, e3, e4, sewResult,
    Option.getD_some, Option.isSome_some]
  simp only [List.eraseIdx_indexOf_eq_erase, fupd_self, fupd_other _ _ hs01,
    fupd_other _ _ h01]
  refine ⟨trivial, hact.not_mem_erase, ?_, ?_, ?_, ?_, ?_, ?_, ?_, ?_, ?_, ?_, ?_, ?_,
    ?_, ?_, ?_⟩
  · simp [dget_dset, dget_dpop, Prod.mk.injEq, hv0, hv1, h01,
      Ne.symm hv0, Ne.symm hv1, Ne.symm h01]
  · simp [dget_dset, dget_dpop, Prod.mk.injEq, hv0, hv1, h01,
      Ne.symm hv0, Ne.symm hv1, Ne.symm h01]
  · simp [dget_dset, dget_dpop, Prod.mk.injEq, hv0, hv1, h01,
      Ne.symm hv0, Ne.symm hv1, Ne.symm h01]
  · simp [dget_dset, dget_dpop, Prod.mk.injEq, hv0, hv1, h01,
      Ne.symm hv0, Ne.symm hv1, Ne.symm h01]
  · intro h
    exact not_mem_ringRemove v _ (List.mem_of_mem_erase h)
  · intro h
    exact not_mem_ringRemove v _ (List.mem_of_mem_erase h)
  · have h1 : (ringRemove v (st.patches w0)).count w1 = (st.patches w0).count w1 :=
      count_ringRemove_of_ne (Ne.symm hv1) _
    have h2 := List.count_erase_self w1 (ringRemove v (st.patches w0))
    have h3 : 0 < (ringRemove v (st.patches w0)).count w1 := List.count_pos_iff.mpr hm0
    omega
  · have h1 : (ringRemove v (st.patches w1)).count w0 = (st.patches w1).count w0 :=
      count_ringRemove_of_ne (Ne.symm hv0) _
    have h2 := List.count_erase_self w0 (ringRemove v (st.patches w1))
    have h3 : 0 < (ringRemove v (st.patches w1)).count w0 := List.count_pos_iff.mpr hm1
    omega
  · have h1 := List.length_erase_add_one hm0
    have h2 := length_ringRemove hc0
    omega
  · have h1 := List.length_erase_add_one hm1
    have h2 := length_ringRemove hc1
    omega
  · trivial
  · trivial
  · simp [dget_dset, Prod.mk.injEq]
  · simp [dget_dset, Prod.mk.injEq, hv0, hv1, h01, Ne.symm hv0, Ne.symm hv1, Ne.symm h01]
  · exact ⟨_, _, rfl⟩

/-- A state with a valence-2 vertex 3 whose ring is `[1, 2]`; vertex 3
occurs once in each neighbour ring and the opposite neighbour twice. -/
def stSew : MState where
  gates := [((1, 3), 2), ((3, 1), 9), ((2, 3), 9), ((3, 2), 9)]
  valences := fun v => if v = 3 then 2 else 4
  patches := fun v =>
    if v = 3 then [1, 2] else if v = 1 then [5, 2, 3, 2]
    else if v = 2 then [3, 1, 6, 1] else []
  active := [1, 2, 3, 5, 6]
  signs := fun _ => none
  vstat := fun _ => false
  fstat := fun _ => none

/-- Witness for C9 at `v = 3`, `w0 = 1`, `w1 = 2` on `stSew`. -/
theorem c9_sew_valence2_removal_witness :
    (sew_conquest_vertex 3 stSew 1).isSome ∧
    3 ∉ (sewResult (sew_conquest_vertex 3 stSew 1) stSew).1.active ∧
    dget (sewResult (sew_conquest_vertex 3 stSew 1) stSew).1.gates (1, 3) = none ∧
    (dget (sewResult (sew_conquest_vertex 3 stSew 1) stSew).1.gates (1, 2)).isSome := by
  have h := c9_sew_valence2_removal 3 1 2 stSew 1 (by decide) (by decide) (by decide)
    (by decide) (by decide) (by decide) (by decide) (by decide) (by decide) (by decide)
    (by decide) (by decide) (by decide) (by decide)
  exact ⟨h.1, h.2.1, h.2.2.1, h.2.2.2.2.2.2.2.2.2.2.2.2.2.2.1⟩

/-- C7 (amended): a dequeued gate is skipped only when its face-status is
already set; a dequeued gate absent from the gate table is NOT skipped —
the unguarded lookup `front = gates[gate]` fails (Python `KeyError`) in
both the Decimating and the Cleaning Conquest. -/
theorem c7_gate_missing_amended :
    (∀ (st : MState) (l r : Nat) (rest : List (Nat × Nat)),
        dget st.gates (l, r) = none →
        decimating_conquest_step st ((l, r) :: rest) = Except.error ()) ∧
    (∀ (st : MState) (done : List (Nat × Nat)) (l r : Nat) (rest : List (Nat × Nat))
        (cv : Nat),
        (l, r) ∉ done → dget st.gates (l, r) = none →
        cleaning_step st done ((l, r) :: rest) cv = Except.error ()) ∧
    (∀ (st : MState) (l r : Nat) (rest : List (Nat × Nat)) (s : FStat) (f : Nat),
        dget st.gates (l, r) = some f → st.fstat (l, r) = some s →
        decimating_conquest_step st ((l, r) :: rest) = Except.ok (markLR st l r, rest, [])) := by
  refine ⟨?_, ?_, ?_⟩
  · intro st l r rest h
    simp [decimating_conquest_step, markLR, h]
  · intro st done l r rest cv hd h
    simp [cleaning_step, hd, h]
  · intro st l r rest s f hg hs
    simp [decimating_conquest_step, markLR, hg, hs]

/-- A state whose only gate is `(1,2) ↦ 5` with face-status CONQUERED on
`(1,2)`; the gate `(3,4)` is absent. -/
def stW7 : MState where
  gates := [((1, 2), 5)]
  valences := fun _ => 4
  patches := fun _ => []
  active := []
  signs := fun _ => none
  vstat := fun _ => false
  fstat := fun k => if k = (1, 2) then some FStat.conquered else none

/-- Witness for the amended C7 on `stW7`: missing gate `(3,4)` fails in
both passes, decided gate `(1,2)` is skipped. -/
theorem c7_gate_missing_amended_witness :
    decimating_conquest_step stW7 [(3, 4)] = Except.error () ∧
    cleaning_step stW7 [] [(3, 4)] 1 = Except.error () ∧
    decimating_conquest_step stW7 [(1, 2)] = Except.ok (markLR stW7 1 2, [], []) :=
  ⟨c7_gate_missing_amended.1 stW7 3 4 [] (by decide),
    c7_gate_missing_amended.2.1 stW7 [] 3 4 [] 1 (by decide) (by decide),
    c7_gate_missing_amended.2.2 stW7 1 2 [] FStat.conquered 5 (by decide) (by decide)⟩

theorem list_length_eq_four {α : Type} {l : List α} (h : l.length = 4) :
    ∃ a b c d, l = [a, b, c, d] := by
  rcases l with _ | ⟨a, l⟩
  · simp at h
  rcases l with _ | ⟨b, l⟩
  · simp at h
  rcases l with _ | ⟨c, l⟩
  · simp at h
  rcases l with _ | ⟨d, l⟩
  · simp at h
  simp only [List.length_cons] at h
  have hn : l = [] := List.length_eq_zero.mp (by omega)
  subst hn
  exact ⟨a, b, c, d, rfl⟩

theorem list_length_eq_five {α : Type} {l : List α} (h : l.length = 5) :
    ∃ a b c d e, l = [a, b, c, d, e] := by
  rcases l with _ | ⟨a, l⟩
  · simp at h
  simp only [List.length_cons] at h
  obtain ⟨b, c, d, e, rfl⟩ := list_length_eq_four (l := l) (by omega)
  exact ⟨a, b, c, d, e, rfl⟩

theorem list_length_eq_six {α : Type} {l : List α} (h : l.length = 6) :
    ∃ a b c d e f, l = [a, b, c, d, e, f] := by
  rcases l with _ | ⟨a, l⟩
  · simp at h
  simp only [List.length_cons] at h
  obtain ⟨b, c, d, e, f, rfl⟩ := list_length_eq_five (l := l) (by omega)
  exact ⟨a, b, c, d, e, f, rfl⟩

theorem sign_plus_ne_minus : (Sign.plus = Sign.minus) = False := by simp

theorem sign_minus_eq_minus : (Sign.minus = Sign.minus) = True := by simp

/-- Ring-length / valence preservation through one retriangulation: every
case of the table changes, for each ring vertex, the ring length and the
valence by the same amount. -/
theorem retri_ring_length (chain : List Nat) (l r front : Nat) (ls rs : Sign)
    (st : MState)
    (hv : st.valences front = 3 ∨ st.valences front = 4 ∨ st.valences front = 5 ∨
      st.valences front = 6)
    (hlen : (chain.length : Int) = st.valences front)
    (hr : chain.getD 0 0 = r)
    (hl : chain.getD (chain.length - 1) 0 = l)
    (hnd : (front :: chain).Nodup)
    (hrings : ∀ w ∈ chain, (st.patches w).count front = 1 ∧
      ((st.patches w).length : Int) = st.valences w) :
    ∀ w ∈ chain,
      (((retriangulationBody chain l r front ls rs st).1.patches w).length : Int) =
        (retriangulationBody chain l r front ls rs st).1.valences w := by
  rcases hv with hv | hv | hv | hv
  · -- valence 3
    have hlen3 : chain.length = 3 := by rw [hv] at hlen; exact_mod_cast hlen
    obtain ⟨c0, c1, c2, rfl⟩ := List.length_eq_three.mp hlen3
    have hr2 : c0 = r := by simpa using hr
    have hl2 : c2 = l := by rw [← hl]; rfl
    subst hr2 hl2
    simp only [List.nodup_cons, List.mem_cons, List.not_mem_nil, or_false, not_or,
      List.nodup_nil, and_true] at hnd
    obtain ⟨⟨hf0, hf1, hf2⟩, ⟨h01, h02⟩, h12, -⟩ := hnd
    obtain ⟨cnt0, len0⟩ := hrings c0 (by simp)
    obtain ⟨cnt1, len1⟩ := hrings c1 (by simp)
    obtain ⟨cnt2, len2⟩ := hrings c2 (by simp)
    have E0 := length_ringRemove cnt0
    have E1 := length_ringRemove cnt1
    have E2 := length_ringRemove cnt2
    intro w hw
    simp only [List.mem_cons, List.not_mem_nil, or_false] at hw
    have g1 : [c0, c1, c2].getD 1 0 = c1 := rfl
    obtain rfl | rfl | rfl := hw <;>
    · simp only [retriangulationBody, hv, g1, List.getD_cons_zero,
        List.foldl_cons, List.foldl_nil, fupd_self,
        fupd_other _ _ h01, fupd_other _ _ (Ne.symm h01),
        fupd_other _ _ h02, fupd_other _ _ (Ne.symm h02),
        fupd_other _ _ h12, fupd_other _ _ (Ne.symm h12)]
      norm_num [fupd_self, fupd_other _ _ h01, fupd_other _ _ (Ne.symm h01),
        fupd_other _ _ h02, fupd_other _ _ (Ne.symm h02),
        fupd_other _ _ h12, fupd_other _ _ (Ne.symm h12)]
      omega
  · -- valence 4
    have hlen4 : chain.length = 4 := by rw [hv] at hlen; exact_mod_cast hlen
    obtain ⟨c0, c1, c2, c3, rfl⟩ := list_length_eq_four hlen4
    have hr2 : c0 = r := by simpa using hr
    have hl2 : c3 = l := by rw [← hl]; rfl
    subst hr2 hl2
    simp only [List.nodup_cons, List.mem_cons, List.not_mem_nil, or_false, not_or,
      List.nodup_nil, and_true] at hnd
    obtain ⟨⟨hf0, hf1, hf2, hf3⟩, ⟨h01, h02, h03⟩, ⟨h12, h13⟩, h23, -⟩ := hnd
    obtain ⟨cnt0, len0⟩ := hrings c0 (by simp)
    obtain ⟨cnt1, len1⟩ := hrings c1 (by simp)
    obtain ⟨cnt2, len2⟩ := hrings c2 (by simp)
    obtain ⟨cnt3, len3⟩ := hrings c3 (by simp)
    have E0 := length_ringRemove cnt0
    have E1 := length_ringRemove cnt1
    have E2 := length_ringRemove cnt2
    have E3 := length_ringRemove cnt3
    have g1 : [c0, c1, c2, c3].getD 1 0 = c1 := rfl
    have g2 : [c0, c1, c2, c3].getD 2 0 = c2 := rfl
    have g3 : [c0, c1, c2, c3].getD 3 0 = c3 := rfl
    rcases rs with _ | _ <;>
    · intro w hw
      simp only [List.mem_cons, List.not_mem_nil, or_false] at hw
      obtain rfl | rfl | rfl | rfl := hw <;>
      · simp only [retriangulationBody, hv, g1, g2, g3, List.getD_cons_zero,
          sign_plus_ne_minus, sign_minus_eq_minus, if_true, if_false]
        norm_num [fupd_self, length_ringReplace, cnt0, cnt1, cnt2, cnt3,
          fupd_other _ _ h01, fupd_other _ _ (Ne.symm h01),
          fupd_other _ _ h02, fupd_other _ _ (Ne.symm h02),
          fupd_other _ _ h03, fupd_other _ _ (Ne.symm h03),
          fupd_other _ _ h12, fupd_other _ _ (Ne.symm h12),
          fupd_other _ _ h13, fupd_other _ _ (Ne.symm h13),
          fupd_other _ _ h23, fupd_other _ _ (Ne.symm h23)]
        omega
  · -- valence 5
    have hlen5 : chain.length = 5 := by rw [hv] at hlen; exact_mod_cast hlen
    obtain ⟨c0, c1, c2, c3, c4, rfl⟩ := list_length_eq_five hlen5
    have hr2 : c0 = r := by simpa using hr
    have hl2 : c4 = l := by rw [← hl]; rfl
    subst hr2 hl2
    simp only [List.nodup_cons, List.mem_cons, List.not_mem_nil, or_false, not_or,
      List.nodup_nil, and_true] at hnd
    obtain ⟨⟨hf0, hf1, hf2, hf3, hf4⟩, ⟨h01, h02, h03, h04⟩, ⟨h12, h13, h14⟩,
      ⟨h23, h24⟩, h34, -⟩ := hnd
    obtain ⟨cnt0, len0⟩ := hrings c0 (by simp)
    obtain ⟨cnt1, len1⟩ := hrings c1 (by simp)
    obtain ⟨cnt2, len2⟩ := hrings c2 (by simp)
    obtain ⟨cnt3, len3⟩ := hrings c3 (by simp)
    obtain ⟨cnt4, len4⟩ := hrings c4 (by simp)
    have E0 := length_ringRemove cnt0
    have E1 := length_ringRemove cnt1
    have E2 := length_ringRemove cnt2
    have E3 := length_ringRemove cnt3
    have E4 := length_ringRemove cnt4
    have g1 : [c0, c1, c2, c3, c4].getD 1 0 = c1 := rfl
    have g2 : [c0, c1, c2, c3, c4].getD 2 0 = c2 := rfl
    have g3 : [c0, c1, c2, c3, c4].getD 3 0 = c3 := rfl
    have g4 : [c0, c1, c2, c3, c4].getD 4 0 = c4 := rfl
    rcases rs with _ | _ <;> rcases ls with _ | _ <;>
    · intro w hw
      simp only [List.mem_cons, List.not_mem_nil, or_false] at hw
      obtain rfl | rfl | rfl | rfl | rfl := hw <;>
      · simp only [retriangulationBody, hv, g1, g2, g3, g4, List.getD_cons_zero,
          sign_plus_ne_minus, sign_minus_eq_minus, if_true, if_false]
        norm_num [fupd_self, length_ringReplace, length_ringInsert2,
          cnt0, cnt1, cnt2, cnt3, cnt4,
          fupd_other _ _ h01, fupd_other _ _ (Ne.symm h01),
          fupd_other _ _ h02, fupd_other _ _ (Ne.symm h02),
          fupd_other _ _ h03, fupd_other _ _ (Ne.symm h03),
          fupd_other _ _ h04, fupd_other _ _ (Ne.symm h04),
          fupd_other _ _ h12, fupd_other _ _ (Ne.symm h12),
          fupd_other _ _ h13, fupd_other _ _ (Ne.symm h13),
          fupd_other _ _ h14, fupd_other _ _ (Ne.symm h14),
          fupd_other _ _ h23, fupd_other _ _ (Ne.symm h23),
          fupd_other _ _ h24, fupd_other _ _ (Ne.symm h24),
          fupd_other _ _ h34, fupd_other _ _ (Ne.symm h34)]
        omega
  · -- valence 6
    have hlen6 : chain.length = 6 := by rw [hv] at hlen; exact_mod_cast hlen
    obtain ⟨c0, c1, c2, c3, c4, c5, rfl⟩ := list_length_eq_six hlen6
    have hr2 : c0 = r := by simpa using hr
    have hl2 : c5 = l := by rw [← hl]; rfl
    subst hr2 hl2
    simp only [List.nodup_cons, List.mem_cons, List.not_mem_nil, or_false, not_or,
      List.nodup_nil, and_true] at hnd
    obtain ⟨⟨hf0, hf1, hf2, hf3, hf4, hf5⟩, ⟨h01, h02, h03, h04, h05⟩,
      ⟨h12, h13, h14, h15⟩, ⟨h23, h24, h25⟩, ⟨h34, h35⟩, h45, -⟩ := hnd
    obtain ⟨cnt0, len0⟩ := hrings c0 (by simp)
    obtain ⟨cnt1, len1⟩ := hrings c1 (by simp)
    obtain ⟨cnt2, len2⟩ := hrings c2 (by simp)
    obtain ⟨cnt3, len3⟩ := hrings c3 (by simp)
    obtain ⟨cnt4, len4⟩ := hrings c4 (by simp)
    obtain ⟨cnt5, len5⟩ := hrings c5 (by simp)
    have E0 := length_ringRemove cnt0
    have E1 := length_ringRemove cnt1
    have E2 := length_ringRemove cnt2
    have E3 := length_ringRemove cnt3
    have E4 := length_ringRemove cnt4
    have E5 := length_ringRemove cnt5
    have g1 : [c0, c1, c2, c3, c4, c5].getD 1 0 = c1 := rfl
    have g2 : [c0, c1, c2, c3, c4, c5].getD 2 0 = c2 := rfl
    have g3 : [c0, c1, c2, c3, c4, c5].getD 3 0 = c3 := rfl
    have g4 : [c0, c1, c2, c3, c4, c5].getD 4 0 = c4 := rfl
    have g5 : [c0, c1, c2, c3, c4, c5].getD 5 0 = c5 := rfl
    rcases rs with _ | _ <;>
    · intro w hw
      simp only [List.mem_cons, List.not_mem_nil, or_false] at hw
      obtain rfl | rfl | rfl | rfl | rfl | rfl := hw <;>
      · simp only [retriangulationBody, hv, g1, g2, g3, g4, g5, List.getD_cons_zero,
          sign_plus_ne_minus, sign_minus_eq_minus, if_true, if_false]
        norm_num [fupd_self, length_ringReplace, length_ringInsert2,
          cnt0, cnt1, cnt2, cnt3, cnt4, cnt5,
          fupd_other _ _ h01, fupd_other _ _ (Ne.symm h01),
          fupd_other _ _ h02, fupd_other _ _ (Ne.symm h02),
          fupd_other _ _ h03, fupd_other _ _ (Ne.symm h03),
          fupd_other _ _ h04, fupd_other _ _ (Ne.symm h04),
          fupd_other _ _ h05, fupd_other _ _ (Ne.symm h05),
          fupd_other _ _ h12, fupd_other _ _ (Ne.symm h12),
          fupd_other _ _ h13, fupd_other _ _ (Ne.symm h13),
          fupd_other _ _ h14, fupd_other _ _ (Ne.symm h14),
          fupd_other _ _ h15, fupd_other _ _ (Ne.symm h15),
          fupd_other _ _ h23, fupd_other _ _ (Ne.symm h23),
          fupd_other _ _ h24, fupd_other _ _ (Ne.symm h24),
          fupd_other _ _ h25, fupd_other _ _ (Ne.symm h25),
          fupd_other _ _ h34, fupd_other _ _ (Ne.symm h34),
          fupd_other _ _ h35, fupd_other _ _ (Ne.symm h35),
          fupd_other _ _ h45, fupd_other _ _ (Ne.symm h45)]
        omega

/-- Projection of a cleaning-removal result, with the untouched state as
the default of the (never exercised) exception path. -/
def cleanResState (o : Option (MState × List Rec × Nat × Nat × Nat)) (d : MState) :
    MState :=
  (o.getD (d, [], 0, 0, 0)).1

/-- Ring-length / valence preservation through one cleaning-pass valence-3
removal: every ring vertex loses one incident face and one ring entry. -/
theorem cleaning_remove_ring_length
    (front c0 c1 c2 : Nat) (st : MState) (cv : Nat)
    (hnd : [front, c0, c1, c2].Nodup)
    (hrings : ∀ w ∈ [c0, c1, c2], (st.patches w).count front = 1 ∧
      ((st.patches w).length : Int) = st.valences w)
    (hp1 : (dget st.gates (front, c0)).isSome)
    (hp2 : (dget st.gates (c0, front)).isSome)
    (hp3 : (dget st.gates (front, c1)).isSome)
    (hp4 : (dget st.gates (c1, front)).isSome)
    (hp5 : (dget st.gates (front, c2)).isSome)
    (hp6 : (dget st.gates (c2, front)).isSome)
    (ho1 : (dget st.gates (c1, c0)).isSome)
    (ho2 : (dget st.gates (c2, c1)).isSome) :
    (cleaning_remove front [c0, c1, c2] st cv).isSome ∧
    ∀ w ∈ [c0, c1, c2],
      (((cleanResState (cleaning_remove front [c0, c1, c2] st cv) st).patches w).length :
          Int) =
        (cleanResState (cleaning_remove front [c0, c1, c2] st cv) st).valences w := by
  simp only [List.nodup_cons, List.mem_cons, List.not_mem_nil, or_false, not_or,
    List.nodup_nil, and_true] at hnd
  obtain ⟨⟨nf0, nf1, nf2⟩, ⟨d01, d02⟩, d12, -⟩ := hnd
  obtain ⟨cnt0, len0⟩ := hrings c0 (by simp)
  obtain ⟨cnt1, len1⟩ := hrings c1 (by simp)
  obtain ⟨cnt2, len2⟩ := hrings c2 (by simp)
  have E0 := length_ringRemove cnt0
  have E1 := length_ringRemove cnt1
  have E2 := length_ringRemove cnt2
  have k1 : ((c0 : Nat), front) ≠ ((front : Nat), c0) := by simp [Prod.mk.injEq, Ne.symm nf0]
  have k2a : ((front : Nat), c1) ≠ ((front : Nat), c0) := by simp [Prod.mk.injEq, Ne.symm d01]
  have k2b : ((front : Nat), c1) ≠ ((c0 : Nat), front) := by simp [Prod.mk.injEq, nf0]
  have k3a : ((c1 : Nat), front) ≠ ((front : Nat), c0) := by simp [Prod.mk.injEq, Ne.symm nf1]
  have k3b : ((c1 : Nat), front) ≠ ((c0 : Nat), front) := by simp [Prod.mk.injEq, Ne.symm d01]
  have k3c : ((c1 : Nat), front) ≠ ((front : Nat), c1) := by simp [Prod.mk.injEq, Ne.symm nf1]
  have k4a : ((front : Nat), c2) ≠ ((front : Nat), c0) := by simp [Prod.mk.injEq, Ne.symm d02]
  have k4b : ((front : Nat), c2) ≠ ((c0 : Nat), front) := by simp [Prod.mk.injEq, nf0]
  have k4c : ((front : Nat), c2) ≠ ((front : Nat), c1) := by simp [Prod.mk.injEq, Ne.symm d12]
  have k4d : ((front : Nat), c2) ≠ ((c1 : Nat), front) := by simp [Prod.mk.injEq, nf1]
  have k5a : ((c2 : Nat), front) ≠ ((front : Nat), c0) := by simp [Prod.mk.injEq, Ne.symm nf2]
  have k5b : ((c2 : Nat), front) ≠ ((c0 : Nat), front) := by simp [Prod.mk.injEq, Ne.symm d02]
  have k5c : ((c2 : Nat), front) ≠ ((front : Nat), c1) := by simp [Prod.mk.injEq, Ne.symm nf2]
  have k5d : ((c2 : Nat), front) ≠ ((c1 : Nat), front) := by simp [Prod.mk.injEq, Ne.symm d12]
  have k5e : ((c2 : Nat), front) ≠ ((front : Nat), c2) := by simp [Prod.mk.injEq, Ne.symm nf2]
  have q1 : dpopE st.gates (front, c0) = some (dpop st.gates (front, c0)) :=
    dpopE_of_isSome hp1
  have i2 : (dget (dpop st.gates (front, c0)) (c0, front)).isSome := by
    rw [dget_dpop, if_neg k1]; exact hp2
  have q2 : dpopE (dpop st.gates (front, c0)) (c0, front) =
      some (dpop (dpop st.gates (front, c0)) (c0, front)) := dpopE_of_isSome i2
  have i3 : (dget (dpop (dpop st.gates (front, c0)) (c0, front)) (front, c1)).isSome := by
    rw [dget_dpop, if_neg k2b, dget_dpop, if_neg k2a]; exact hp3
  have q3 : dpopE (dpop (dpop st.gates (front, c0)) (c0, front)) (front, c1) =
      some (dpop (dpop (dpop st.gates (front, c0)) (c0, front)) (front, c1)) :=
    dpopE_of_isSome i3
  have i4 : (dget (dpop (dpop (dpop st.gates (front, c0)) (c0, front)) (front, c1))
      (c1, front)).isSome := by
    rw [dget_dpop, if_neg k3c, dget_dpop, if_neg k3b, dget_dpop, if_neg k3a]; exact hp4
  have q4 : dpopE (dpop (dpop (dpop st.gates (front, c0)) (c0, front)) (front, c1))
      (c1, front) =
      some (dpop (dpop (dpop (dpop st.gates (front, c0)) (c0, front)) (front, c1))
        (c1, front)) := dpopE_of_isSome i4
  have i5 : (dget (dpop (dpop (dpop (dpop st.gates (front, c0)) (c0, front)) (front, c1))
      (c1, front)) (front, c2)).isSome := by
    rw [dget_dpop, if_neg k4d, dget_dpop, if_neg k4c, dget_dpop, if_neg k4b,
      dget_dpop, if_neg k4a]
    exact hp5
  have q5 : dpopE (dpop (dpop (dpop (dpop st.gates (front, c0)) (c0, front)) (front, c1))
      (c1, front)) (front, c2) =
      some (dpop (dpop (dpop (dpop (dpop st.gates (front, c0)) (c0, front)) (front, c1))
        (c1, front)) (front, c2)) := dpopE_of_isSome i5
  have i6 : (dget (dpop (dpop (dpop (dpop (dpop st.gates (front, c0)) (c0, front))
      (front, c1)) (c1, front)) (front, c2)) (c2, front)).isSome := by
    rw [dget_dpop, if_neg k5e, dget_dpop, if_neg k5d, dget_dpop, if_neg k5c,
      dget_dpop, if_neg k5b, dget_dpop, if_neg k5a]
    exact hp6
  have q6 : dpopE (dpop (dpop (dpop (dpop (dpop st.gates (front, c0)) (c0, front))
      (front, c1)) (c1, front)) (front, c2)) (c2, front) =
      some (dpop (dpop (dpop (dpop (dpop (dpop st.gates (front, c0)) (c0, front))
        (front, c1)) (c1, front)) (front, c2)) (c2, front)) := dpopE_of_isSome i6
  obtain ⟨f1, hof1⟩ := Option.isSome_iff_exists.mp ho1
  obtain ⟨f2, hof2⟩ := Option.isSome_iff_exists.mp ho2
  have m1a : ((c1 : Nat), c0) ≠ ((c2 : Nat), c0) := by simp [Prod.mk.injEq, d12]
  have m1b : ((c1 : Nat), c0) ≠ ((c1 : Nat), c2) := by simp [Prod.mk.injEq, d02]
  have m1c : ((c1 : Nat), c0) ≠ ((c0 : Nat), c1) := by simp [Prod.mk.injEq, Ne.symm d01]
  have m2a : ((c2 : Nat), c1) ≠ ((c2 : Nat), c0) := by simp [Prod.mk.injEq, Ne.symm d01]
  have m2b : ((c2 : Nat), c1) ≠ ((c1 : Nat), c2) := by simp [Prod.mk.injEq, Ne.symm d12]
  have m2c : ((c2 : Nat), c1) ≠ ((c0 : Nat), c1) := by simp [Prod.mk.injEq, Ne.symm d02]
  have pA : ∀ k : Nat × Nat, k.1 ≠ front → k.2 ≠ front →
      dget (dpop (dpop (dpop (dpop (dpop (dpop st.gates (front, c0)) (c0, front))
        (front, c1)) (c1, front)) (front, c2)) (c2, front)) k = dget st.gates k := by
    intro k hk1 hk2
    rw [dget_dpop, if_neg (fun e => hk2 (congrArg Prod.snd e)),
      dget_dpop, if_neg (fun e => hk1 (congrArg Prod.fst e)),
      dget_dpop, if_neg (fun e => hk2 (congrArg Prod.snd e)),
      dget_dpop, if_neg (fun e => hk1 (congrArg Prod.fst e)),
      dget_dpop, if_neg (fun e => hk2 (congrArg Prod.snd e)),
      dget_dpop, if_neg (fun e => hk1 (congrArg Prod.fst e))]
  have r1 : dget (dset (dset (dset (dpop (dpop (dpop (dpop (dpop (dpop st.gates
      (front, c0)) (c0, front)) (front, c1)) (c1, front)) (front, c2)) (c2, front))
      (c0, c1) c2) (c1, c2) c0) (c2, c0) c1) (c1, c0) = some f1 := by
    rw [dget_dset, if_neg m1a, dget_dset, if_neg m1b, dget_dset, if_neg m1c,
      pA (c1, c0) (Ne.symm nf1) (Ne.symm nf0)]
    exact hof1
  have r2 : dget (dset (dset (dset (dpop (dpop (dpop (dpop (dpop (dpop st.gates
      (front, c0)) (c0, front)) (front, c1)) (c1, front)) (front, c2)) (c2, front))
      (c0, c1) c2) (c1, c2) c0) (c2, c0) c1) (c2, c1) = some f2 := by
    rw [dget_dset, if_neg m2a, dget_dset, if_neg m2b, dget_dset, if_neg m2c,
      pA (c2, c1) (Ne.symm nf2) (Ne.symm nf1)]
    exact hof2
  have gA : [c0, c1, c2].getD 1 0 = c1 := rfl
  have gB : [c0, c1, c2].getD 2 0 = c2 := rfl
  simp only [cleaning_remove, cleanPointLoop, List.getD_cons_zero, gA, gB,
    q1, q2, q3, q4, q5, q6, r1, r2, cleanResState, Option.getD_some, Option.isSome_some]
  refine ⟨trivial, ?_⟩
  intro w hw
  simp only [List.mem_cons, List.not_mem_nil, or_false] at hw
  obtain rfl | rfl | rfl := hw <;>
  · norm_num [List.foldl_cons, List.foldl_nil, fupd_self,
      fupd_other _ _ d01, fupd_other _ _ (Ne.symm d01),
      fupd_other _ _ d02, fupd_other _ _ (Ne.symm d02),
      fupd_other _ _ d12, fupd_other _ _ (Ne.symm d12)]
    omega

/-- Ring-length / valence preservation through one sew-pass valence-2
removal: each ring neighbour loses two faces and two ring entries. -/
theorem sew_remove_ring_length
    (v w0 w1 : Nat) (st : MState) (cv : Nat)
    (hval2 : st.valences v = 2)
    (hchain : st.patches v = [w0, w1])
    (hv0 : v ≠ w0) (hv1 : v ≠ w1) (h01 : w0 ≠ w1)
    (hg1 : (dget st.gates (w0, v)).isSome)
    (hg2 : (dget st.gates (w1, v)).isSome)
    (hg3 : (dget st.gates (v, w0)).isSome)
    (hg4 : (dget st.gates (v, w1)).isSome)
    (hc0 : (st.patches w0).count v = 1)
    (hm0 : w1 ∈ ringRemove v (st.patches w0))
    (hc1 : (st.patches w1).count v = 1)
    (hm1 : w0 ∈ ringRemove v (st.patches w1))
    (len0 : ((st.patches w0).length : Int) = st.valences w0)
    (len1 : ((st.patches w1).length : Int) = st.valences w1) :
    (sew_conquest_vertex v st cv).isSome ∧
    ∀ w ∈ [w0, w1],
      (((sewResult (sew_conquest_vertex v st cv) st).1.patches w).length : Int) =
        (sewResult (sew_conquest_vertex v st cv) st).1.valences w := by
  have neA : ((w1 : Nat), v) ≠ ((w0 : Nat), v) := by simp [Prod.mk.injEq, Ne.symm h01]
  have neB1 : ((v : Nat), w0) ≠ ((w0 : Nat), v) := by simp [Prod.mk.injEq, hv0]
  have neB2 : ((v : Nat), w0) ≠ ((w1 : Nat), v) := by simp [Prod.mk.injEq, hv1]
  have neC1 : ((v : Nat), w1) ≠ ((w0 : Nat), v) := by simp [Prod.mk.injEq, hv0]
  have neC2 : ((v : Nat), w1) ≠ ((w1 : Nat), v) := by simp [Prod.mk.injEq, hv1]
  have neC3 : ((v : Nat), w1) ≠ ((v : Nat), w0) := by simp [Prod.mk.injEq, Ne.symm h01]
  have e1 : dpopE st.gates (w0, v) = some (dpop st.gates (w0, v)) := dpopE_of_isSome hg1
  have i2 : (dget (dpop st.gates (w0, v)) (w1, v)).isSome := by
    rw [dget_dpop, if_neg neA]; exact hg2
  have e2 : dpopE (dpop st.gates (w0, v)) (w1, v) =
      some (dpop (dpop st.gates (w0, v)) (w1, v)) := dpopE_of_isSome i2
  have i3 : (dget (dpop (dpop st.gates (w0, v)) (w1, v)) (v, w0)).isSome := by
    rw [dget_dpop, if_neg neB2, dget_dpop, if_neg neB1]; exact hg3
  have e3 : dpopE (dpop (dpop st.gates (w0, v)) (w1, v)) (v, w0) =
      some (dpop (dpop (dpop st.gates (w0, v)) (w1, v)) (v, w0)) := dpopE_of_isSome i3
  have i4 : (dget (dpop (dpop (dpop st.gates (w0, v)) (w1, v)) (v, w0)) (v, w1)).isSome := by
    rw [dget_dpop, if_neg neC3, dget_dpop, if_neg neC2, dget_dpop, if_neg neC1]; exact hg4
  have e4 : dpopE (dpop (dpop (dpop st.gates (w0, v)) (w1, v)) (v, w0)) (v, w1) =
      some (dpop (dpop (dpop (dpop st.gates (w0, v)) (w1, v)) (v, w0)) (v, w1)) :=
    dpopE_of_isSome i4
  have hgd0 : [w0, w1].getD 0 0 = w0 := rfl
  have hgd1 : [w0, w1].getD 1 0 = w1 := rfl
  have hs01 : w1 ≠ w0 := Ne.symm h01
  simp only [sew_conquest_vertex, hval2, if_pos]
  rw [hchain]
  simp only [hgd0, hgd1, sew_remove, e1, e2, e3, e4, sewResult,
    Option.getD_some, Option.isSome_some]
  simp only [List.eraseIdx_indexOf_eq_erase, fupd_self, fupd_other _ _ hs01,
    fupd_other _ _ h01]
  refine ⟨trivial, ?_⟩
  intro w hw
  simp only [List.mem_cons, List.not_mem_nil, or_false] at hw
  have hL0 := List.length_erase_add_one hm0
  have hL1 := List.length_erase_add_one hm1
  have hR0 := length_ringRemove hc0
  have hR1 := length_ringRemove hc1
  obtain rfl | rfl := hw
  · simp only [fupd_self, fupd_other _ _ h01]
    omega
  · simp only [fupd_self, fupd_other _ _ hs01]
    omega

/-- C5: the invariant `len(ring(v)) = valence(v)` is restored by every
rewrite for every affected ring vertex — by each of the eight
retriangulation cases (valences 3-6, all parity branches), by each
cleaning-pass valence-3 removal, and by each sew-pass valence-2 removal —
under the locality conditions the conquests maintain (the removed vertex
occurs exactly once in each ring, the ring vertices are pairwise
distinct, the incident gates exist). -/
theorem c5_ring_length_matches_valence :
    (∀ (chain : List Nat) (l r front : Nat) (ls rs : Sign) (st : MState),
      (st.valences front = 3 ∨ st.valences front = 4 ∨ st.valences front = 5 ∨
        st.valences front = 6) →
      (chain.length : Int) = st.valences front →
      chain.getD 0 0 = r →
      chain.getD (chain.length - 1) 0 = l →
      (front :: chain).Nodup →
      (∀ w ∈ chain, (st.patches w).count front = 1 ∧
        ((st.patches w).length : Int) = st.valences w) →
      ∀ w ∈ chain,
        (((retriangulationBody chain l r front ls rs st).1.patches w).length : Int) =
          (retriangulationBody chain l r front ls rs st).1.valences w) ∧
    (∀ (front c0 c1 c2 : Nat) (st : MState) (cv : Nat),
      [front, c0, c1, c2].Nodup →
      (∀ w ∈ [c0, c1, c2], (st.patches w).count front = 1 ∧
        ((st.patches w).length : Int) = st.valences w) →
      (dget st.gates (front, c0)).isSome →
      (dget st.gates (c0, front)).isSome →
      (dget st.gates (front, c1)).isSome →
      (dget st.gates (c1, front)).isSome →
      (dget st.gates (front, c2)).isSome →
      (dget st.gates (c2, front)).isSome →
      (dget st.gates (c1, c0)).isSome →
      (dget st.gates (c2, c1)).isSome →
      (cleaning_remove front [c0, c1, c2] st cv).isSome ∧
      ∀ w ∈ [c0, c1, c2],
        (((cleanResState (cleaning_remove front [c0, c1, c2] st cv) st).patches
            w).length : Int) =
          (cleanResState (cleaning_remove front [c0, c1, c2] st cv) st).valences w) ∧
    (∀ (v w0 w1 : Nat) (st : MState) (cv : Nat),
      st.valences v = 2 →
      st.patches v = [w0, w1] →
      v ≠ w0 → v ≠ w1 → w0 ≠ w1 →
      (dget st.gates (w0, v)).isSome →
      (dget st.gates (w1, v)).isSome →
      (dget st.gates (v, w0)).isSome →
      (dget st.gates (v, w1)).isSome →
      (st.patches w0).count v = 1 →
      w1 ∈ ringRemove v (st.patches w0) →
      (st.patches w1).count v = 1 →
      w0 ∈ ringRemove v (st.patches w1) →
      ((st.patches w0).length : Int) = st.valences w0 →
      ((st.patches w1).length : Int) = st.valences w1 →
      (sew_conquest_vertex v st cv).isSome ∧
      ∀ w ∈ [w0, w1],
        (((sewResult (sew_conquest_vertex v st cv) st).1.patches w).length : Int) =
          (sewResult (sew_conquest_vertex v st cv) st).1.valences w) :=
  ⟨retri_ring_length,
   fun front c0 c1 c2 st cv hnd hrings hp1 hp2 hp3 hp4 hp5 hp6 ho1 ho2 =>
     cleaning_remove_ring_length front c0 c1 c2 st cv hnd hrings hp1 hp2 hp3 hp4 hp5
       hp6 ho1 ho2,
   fun v w0 w1 st cv h1 h2 h3 h4 h5 h6 h7 h8 h9 h10 h11 h12 h13 h14 h15 =>
     sew_remove_ring_length v w0 w1 st cv h1 h2 h3 h4 h5 h6 h7 h8 h9 h10 h11 h12 h13
       h14 h15⟩

/-- Tetrahedron-like state for the retriangulation conjunct of C5:
front vertex 4 of valence 3, ring `[1, 2, 3]`, all rings of length 3. -/
def stC5r : MState where
  gates := []
  valences := fun _ => 3
  patches := fun v =>
    if v = 4 then [1, 2, 3] else if v = 1 then [2, 4, 3]
    else if v = 2 then [3, 4, 1] else if v = 3 then [1, 4, 2] else []
  active := [1, 2, 3, 4]
  signs := fun _ => none
  vstat := fun _ => false
  fstat := fun _ => none

/-- State for the cleaning conjunct of C5: front 4 of valence 3 with ring
`[1, 2, 3]`, each ring vertex of valence 3, incident and outward gates
present. -/
def stC5c : MState where
  gates := [((2, 1), 6), ((3, 2), 7)] ++ ringGates 4 [1, 2, 3]
  valences := fun _ => 3
  patches := fun v =>
    if v = 4 then [1, 2, 3] else if v = 1 then [2, 4, 3]
    else if v = 2 then [3, 4, 1] else if v = 3 then [1, 4, 2] else []
  active := [1, 2, 3, 4]
  signs := fun _ => none
  vstat := fun _ => false
  fstat := fun _ => none

/-- Witness for C5: one concrete instance per conjunct (a valence-3
retriangulation, a cleaning removal, a sew removal). -/
theorem c5_ring_length_matches_valence_witness :
    (((retriangulationBody [1, 2, 3] 3 1 4 Sign.plus Sign.plus stC5r).1.patches
        2).length : Int) =
      (retriangulationBody [1, 2, 3] 3 1 4 Sign.plus Sign.plus stC5r).1.valences 2 ∧
    (((cleanResState (cleaning_remove 4 [1, 2, 3] stC5c 1) stC5c).patches 1).length :
        Int) =
      (cleanResState (cleaning_remove 4 [1, 2, 3] stC5c 1) stC5c).valences 1 ∧
    (((sewResult (sew_conquest_vertex 3 stSew 1) stSew).1.patches 1).length : Int) =
      (sewResult (sew_conquest_vertex 3 stSew 1) stSew).1.valences 1 :=
  ⟨c5_ring_length_matches_valence.1 [1, 2, 3] 3 1 4 Sign.plus Sign.plus stC5r
      (Or.inl (by decide)) (by decide) (by decide) (by decide) (by decide) (by decide)
      2 (by decide),
   (c5_ring_length_matches_valence.2.1 4 1 2 3 stC5c 1 (by decide) (by decide)
      (by decide) (by decide) (by decide) (by decide) (by decide) (by decide)
      (by decide) (by decide)).2 1 (by decide),
   (c5_ring_length_matches_valence.2.2 3 1 2 stSew 1 (by decide) (by decide)
      (by decide) (by decide) (by decide) (by decide) (by decide) (by decide)
      (by decide) (by decide) (by decide) (by decide) (by decide) (by decide)
      (by decide)).2 1 (by decide)⟩

end LosslessCore
